import Mathlib

/-!
Shallow embedding of the pack-index / pack-file / delta-chain core of
`lib/pack.c` (got-portable), together with theorems settling the frozen
claims about that code.

Conventions of the embedding:
* machine bytes are `Nat` values (< 256 in well-formed data); files are
  `List Nat` with an explicit read position;
* `FILE` reads (`fread`) that hit end-of-file deliver a short count; the
  code then calls `got_ferror(f, code)`, which on a pure in-memory file
  (no OS error flag) reduces to `got_error(code)` — the embedding returns
  the given error code directly on short reads;
* out-parameters of C functions become explicit components of the result;
* fallible C functions returning `const struct got_error *` become
  `Except GotErr _` (or an `Option GotErr` error slot next to the
  out-parameter values when the claim is about the out-parameters);
* an out-of-bounds array read (undefined behaviour in C) is represented
  by `Option`-valued access where `none` marks the out-of-bounds access.
-/

namespace Got

/-- Error kinds of `got_error.h` used by `lib/pack.c` (`GOT_ERR_*`). -/
inductive GotErr where
  | NoMem
  | NoSpace
  | BadPath
  | BadPackidx
  | PackidxCsum
  | BadPackfile
  | BadDeltaChain
  | NoObj
  | NotImpl
  | ObjNotPacked
  | Io
  | FileOpen
  | Errno
deriving Repr, DecidableEq

/-! ## Byte-stream primitives -/

/-- Read `k` bytes starting at `pos`; models `fread` of `k` bytes, which
fails (short count) when the file ends before `k` bytes are available. -/
def readBytes (f : List Nat) (pos k : Nat) : Option (List Nat) :=
  if pos + k ≤ f.length then some ((f.drop pos).take k) else none

/-- Big-endian decoding of a byte list (models `betoh32`/`betoh64` applied
to bytes read in file order). -/
def beVal (bs : List Nat) : Nat :=
  bs.foldl (fun acc b => acc * 256 + b) 0

/-! ## Variable-length type+size header (`parse_object_type_and_size`)

`lib/pack.c` lines 579-613.  The do-while loop reads one byte per
iteration; at the top of each iteration it rejects encodings needing an
11th byte with `GOT_ERR_NO_SPACE`, and a short `fread` yields
`got_ferror(packfile, GOT_ERR_BAD_PACKIDX)`.  The first byte carries
3 type bits and 4 low size bits; later bytes carry 7 size bits each,
LSB-first; the top bit is the continuation flag. -/

def GOT_PACK_OBJ_SIZE0_TYPE_MASK : Nat := 0x70
def GOT_PACK_OBJ_SIZE0_TYPE_MASK_SHIFT : Nat := 4
def GOT_PACK_OBJ_SIZE0_VAL_MASK : Nat := 0x0f
def GOT_PACK_OBJ_SIZE_VAL_MASK : Nat := 0x7f
def GOT_PACK_OBJ_SIZE_MORE : Nat := 0x80

/-- Loop body of `parse_object_type_and_size`; `i` is the iteration
counter, `t`/`s` the accumulated type and size, and `fuel = 10 - i` is
the structural-recursion rendering of the loop's leading `i > 9` check
(the counter only ever advances by 1 from 0, so fuel exhaustion happens
exactly when the check fires).  Returns `(type, size, len)` where `len`
is the number of header bytes consumed.  The size accumulator is a C
`uint64_t`; the embedding truncates the shifted contribution modulo
`2 ^ 64` as the 64-bit register does. -/
def parse_size_go (f : List Nat) (pos i t s : Nat) :
    Nat → Except GotErr (Nat × Nat × Nat)
  | 0 => .error .NoSpace
  | fuel + 1 =>
    match f.get? pos with
    | none => .error .BadPackidx
    | some sizeN =>
      let t' := if i = 0 then
          (sizeN &&& GOT_PACK_OBJ_SIZE0_TYPE_MASK) >>>
            GOT_PACK_OBJ_SIZE0_TYPE_MASK_SHIFT
        else t
      let s' := if i = 0 then sizeN &&& GOT_PACK_OBJ_SIZE0_VAL_MASK
        else (s |||
          (((sizeN &&& GOT_PACK_OBJ_SIZE_VAL_MASK) <<< (4 + 7 * (i - 1)))
            % 2 ^ 64))
      if sizeN &&& GOT_PACK_OBJ_SIZE_MORE ≠ 0 then
        parse_size_go f (pos + 1) (i + 1) t' s' fuel
      else .ok (t', s', i + 1)

/-- `parse_object_type_and_size` decoding the header at byte position
`pos` of packfile `f`: at most 10 bytes are read; an encoding needing an
11th byte fails with `GOT_ERR_NO_SPACE`. -/
def parse_object_type_and_size (f : List Nat) (pos : Nat) :
    Except GotErr (Nat × Nat × Nat) :=
  parse_size_go f pos 0 0 0 10

/-! ## Variable-length negative offset (`parse_negative_offset`)

`lib/pack.c` lines 640-669.  Same continuation-flag scheme, but with the
"offset encoding": every successor byte first increments and shifts the
accumulator.  Rejects encodings needing a 10th byte with
`GOT_ERR_NO_SPACE`; short reads yield `GOT_ERR_BAD_PACKIDX`. -/

def GOT_PACK_OBJ_DELTA_OFF_VAL_MASK : Nat := 0x7f
def GOT_PACK_OBJ_DELTA_OFF_MORE : Nat := 0x80

/-- Loop body of `parse_negative_offset`; `fuel = 9 - i` renders the
loop's leading `i > 8` check structurally.  Returns `(offset, len)`.
The accumulator is a C `int64_t`, modelled by `Int` (the C increment and
shift can overflow a signed 64-bit value only for adversarial 9-byte
encodings; no claim depends on the overflowed value). -/
def parse_neg_go (f : List Nat) (pos i : Nat) (o : Int) :
    Nat → Except GotErr (Int × Nat)
  | 0 => .error .NoSpace
  | fuel + 1 =>
    match f.get? pos with
    | none => .error .BadPackidx
    | some offN =>
      let o' : Int := if i = 0 then ((offN &&& GOT_PACK_OBJ_DELTA_OFF_VAL_MASK : Nat) : Int)
        else (o + 1) * 128 + ((offN &&& GOT_PACK_OBJ_DELTA_OFF_VAL_MASK : Nat) : Int)
      if offN &&& GOT_PACK_OBJ_DELTA_OFF_MORE ≠ 0 then
        parse_neg_go f (pos + 1) (i + 1) o' fuel
      else .ok (o', i + 1)

/-- `parse_negative_offset` at byte position `pos` of packfile `f`:
at most 9 bytes are read. -/
def parse_negative_offset (f : List Nat) (pos : Nat) :
    Except GotErr (Int × Nat) :=
  parse_neg_go f pos 0 0 9

/-! ## Pack index structure

The in-memory `struct got_packidx_v2_hdr` after `got_packidx_open`.  The
C structure stores fanout entries, offsets and large offsets in raw
big-endian form and applies `betoh32`/`betoh64` at every use; the
embedding stores the decoded values, which is equivalent because no code
path reads the raw form.  `large_offsets = []` models the `NULL` pointer
of an index loaded without a large-offsets section. -/
structure Packidx where
  fanout : List Nat
  sorted_ids : List (List Nat)
  crc32 : List Nat
  offsets : List Nat
  large_offsets : List Nat
  trailer_packfile_sha1 : List Nat
  trailer_packidx_sha1 : List Nat
deriving Repr, DecidableEq

def GOT_PACKIDX_OFFSET_VAL_IS_LARGE_IDX : Nat := 0x80000000
def GOT_PACKIDX_OFFSET_VAL_MASK : Nat := 0x7fffffff

/-- `get_object_offset` (`lib/pack.c` lines 277-291).  Returns
`some (-1)` for the error sentinel the C code returns, `some o` for a
valid offset, and `none` when the code reads `large_offsets` out of
bounds (undefined behaviour in C: the bounds check admits
`idx == totobj` and `large_offsets` holds `totobj` entries). -/
def get_object_offset (p : Packidx) (idx : Nat) : Option Int :=
  let totobj := p.fanout.getD 255 0
  match p.offsets.get? idx with
  | none => none
  | some offset =>
    if offset &&& GOT_PACKIDX_OFFSET_VAL_IS_LARGE_IDX ≠ 0 then
      let idx' := offset &&& GOT_PACKIDX_OFFSET_VAL_MASK
      if idx' > totobj ∨ p.large_offsets = [] then some (-1)
      else
        match p.large_offsets.get? idx' with
        | none => none
        | some loffset =>
          some (if (loffset : Int) > 2 ^ 63 - 1 then -1 else (loffset : Int))
    else some ((offset &&& GOT_PACKIDX_OFFSET_VAL_MASK : Nat) : Int)

/-! ## Object-id comparison and `get_object_idx` -/

/-- Modelled from the spec: `got_object_id_cmp` lives in the object
library, which is not under src/.  Per the spec a `HashId` is 20 raw
bytes with "total order: lexicographic over bytes" (`memcmp`
semantics). -/
def got_object_id_cmp : List Nat → List Nat → Int
  | [], [] => 0
  | [], _ :: _ => -1
  | _ :: _, [] => 1
  | a :: as, b :: bs =>
    if a < b then -1 else if b < a then 1 else got_object_id_cmp as bs

/-- The scan loop of `get_object_idx` (`while (i < totobj)`), reading
`sorted_ids[i]` and returning the first index whose id compares equal;
`fuel = totobj - i` renders the `i < totobj` guard structurally. -/
def find_go (p : Packidx) (id : List Nat) (i : Nat) : Nat → Option Nat
  | 0 => none
  | fuel + 1 =>
    if got_object_id_cmp id (p.sorted_ids.getD i []) = 0 then some i
    else find_go p id (i + 1) fuel

/-- `get_object_idx` (`lib/pack.c` lines 293-313): start the linear scan
at `fanout[id0 - 1]` (0 when `id0 = 0`) and run it up to `totobj` —
the loop bound is the total object count, not the end of the first-byte
bucket. -/
def get_object_idx (p : Packidx) (id : List Nat) : Option Nat :=
  let id0 := id.headD 0
  let totobj := p.fanout.getD 255 0
  let start := if id0 > 0 then p.fanout.getD (id0 - 1) 0 else 0
  find_go p id start (totobj - start)

/-! ## `got_packidx_open` (`lib/pack.c` lines 103-249)

The function reads the `.idx` file sequentially: magic, version, the
256-entry fanout table (verified by `verify_fanout_table`), then
`nobj = fanout[255]` sorted ids, CRCs and offsets, the large-offset
table only when the sibling `.pack` file exceeds `0x80000000` bytes
(`get_packfile_size` stats it; the embedding takes the size as the
`packfile_size` parameter), and finally the 40-byte trailer.  Every byte
read — plus the first 20 trailer bytes — is streamed through an
incremental SHA-1 whose digest must equal the last 20 trailer bytes.
SHA-1 itself lives outside src/; the embedding abstracts it as the
digest parameter `H` applied to the streamed bytes in order. -/

def GOT_PACKIDX_V2_MAGIC : Nat := 0xff744f63
def GOT_PACKIDX_VERSION : Nat := 2
def GOT_PACKFILE_SIGNATURE : Nat := 0x5041434b
def GOT_PACKFILE_VERSION : Nat := 2

/-- Split a byte list into `n` consecutive chunks of `k` bytes each
(models reading an array of `n` fixed-size records). -/
def takeChunks (k : Nat) : Nat → List Nat → List (List Nat)
  | 0, _ => []
  | n + 1, bs => bs.take k :: takeChunks k n (bs.drop k)

/-- `verify_fanout_table` (`lib/pack.c` lines 62-73): the loop runs
`for (i = 0; i < 0xff - 1; i++)`, i.e. it compares the 254 entry pairs
`(0,1) … (253,254)` and never looks at the pair `(254,255)`. -/
def verify_fanout_table (fanout : List Nat) : Bool :=
  (List.range 254).all (fun i => fanout.getD i 0 ≤ fanout.getD (i + 1) 0)

/-- Trailer read and checksum comparison shared by the two tails of
`got_packidx_open` (with and without a large-offsets section).
`hashed` is the byte stream fed to SHA-1 so far, `tpos` the file
position of the 40-byte trailer. -/
def packidx_finish (H : List Nat → List Nat) (file : List Nat)
    (tpos : Nat) (hashed fanout : List Nat) (ids : List (List Nat))
    (crc off large : List Nat) : Except GotErr Packidx :=
  match readBytes file tpos 40 with
  | none => .error .BadPackidx
  | some trailerB =>
    let pfsha := trailerB.take 20
    let pisha := trailerB.drop 20
    if H (hashed ++ pfsha) ≠ pisha then .error .PackidxCsum
    else .ok ⟨fanout, ids, crc, off, large, pfsha, pisha⟩

/-- The object-table reads of `got_packidx_open` following the verified
fanout table: `nobj = fanout[255]` sorted ids (20 bytes each), CRCs and
offsets (4 bytes each), the large-offset table (8 bytes each, only when
the sibling `.pack` exceeds 2 GiB), then the trailer and checksum.
`hashed0` is the byte stream fed to SHA-1 by the header reads
(magic ++ version ++ fanout bytes). -/
def packidx_read_tables (H : List Nat → List Nat) (packfile_size : Nat)
    (file hashed0 fanout : List Nat) : Except GotErr Packidx :=
  match readBytes file 1032 (fanout.getD 255 0 * 20) with
  | none => .error .BadPackidx
  | some idsB =>
    match readBytes file (1032 + fanout.getD 255 0 * 20)
        (fanout.getD 255 0 * 4) with
    | none => .error .BadPackidx
    | some crcB =>
      match readBytes file (1032 + fanout.getD 255 0 * 24)
          (fanout.getD 255 0 * 4) with
      | none => .error .BadPackidx
      | some offB =>
        if packfile_size > 0x80000000 then
          match readBytes file (1032 + fanout.getD 255 0 * 28)
              (fanout.getD 255 0 * 8) with
          | none => .error .BadPackidx
          | some largeB =>
            packidx_finish H file (1032 + fanout.getD 255 0 * 36)
              (hashed0 ++ idsB ++ crcB ++ offB ++ largeB) fanout
              (takeChunks 20 (fanout.getD 255 0) idsB)
              ((takeChunks 4 (fanout.getD 255 0) crcB).map beVal)
              ((takeChunks 4 (fanout.getD 255 0) offB).map beVal)
              ((takeChunks 8 (fanout.getD 255 0) largeB).map beVal)
        else
          packidx_finish H file (1032 + fanout.getD 255 0 * 28)
            (hashed0 ++ idsB ++ crcB ++ offB) fanout
            (takeChunks 20 (fanout.getD 255 0) idsB)
            ((takeChunks 4 (fanout.getD 255 0) crcB).map beVal)
            ((takeChunks 4 (fanout.getD 255 0) offB).map beVal)
            []

/-- `got_packidx_open`, with the stat of the sibling `.pack` file passed
in as `packfile_size` and SHA-1 abstracted as `H`.  Each short `fread`
yields `got_ferror(f, GOT_ERR_BAD_PACKIDX)`, which is `BadPackidx` on a
file without an OS error condition. -/
def got_packidx_open (H : List Nat → List Nat) (packfile_size : Nat)
    (file : List Nat) : Except GotErr Packidx :=
  match readBytes file 0 4 with
  | none => .error .BadPackidx
  | some magicB =>
    if beVal magicB ≠ GOT_PACKIDX_V2_MAGIC then .error .BadPackidx
    else
      match readBytes file 4 4 with
      | none => .error .BadPackidx
      | some versionB =>
        if beVal versionB ≠ GOT_PACKIDX_VERSION then .error .BadPackidx
        else
          match readBytes file 8 1024 with
          | none => .error .BadPackidx
          | some fanoutB =>
            if verify_fanout_table ((takeChunks 4 256 fanoutB).map beVal) then
              packidx_read_tables H packfile_size file
                (magicB ++ versionB ++ fanoutB)
                ((takeChunks 4 256 fanoutB).map beVal)
            else .error .BadPackidx

instance instDecEqExcept {ε α : Type} [DecidableEq ε] [DecidableEq α] :
    DecidableEq (Except ε α)
  | .ok x, .ok y =>
    if h : x = y then .isTrue (congrArg Except.ok h)
    else .isFalse (fun he => h (Except.ok.inj he))
  | .error x, .error y =>
    if h : x = y then .isTrue (congrArg Except.error h)
    else .isFalse (fun he => h (Except.error.inj he))
  | .ok _, .error _ => .isFalse (fun he => Except.noConfusion he)
  | .error _, .ok _ => .isFalse (fun he => Except.noConfusion he)

/-! ## Pack cache (`repo->pack_cache`, `lib/pack.c` lines 413-529)

`struct got_repository` holds a fixed array of pack-cache slots; slots
are occupied from the front (every loop breaks at the first slot whose
`packidx` is `NULL`), so the occupied slots always form a prefix and the
cache is modelled as a list of at most 4 entries.  File handles and pack
paths are identified by numbers.  `dup_packidx` copies the index by
value; allocation failure aside (not modelled), the copy equals the
original, so duplication is the identity on the value model. -/

/-- Modelled from the spec: the pack-cache capacity
(`nitems(repo->pack_cache)`) is fixed in `got_repository_lib.h`, which
is not under src/; the spec fixes it at 4 entries. -/
def GOT_PACK_CACHE_SIZE : Nat := 4

structure PackCacheEntry where
  packidx : Packidx
  packfile : Nat
  path_packfile : Nat
deriving Repr, DecidableEq

/-- `cache_pack` (`lib/pack.c` lines 437-459), entered after the pack
file was opened (handle `packfile`, path `path`) and its header checked.
The first free slot receives the entry; when the cache is full, the last
entry's file handles are closed, every entry shifts one slot toward the
tail, and the new entry lands in slot 0.  Returns the new cache and the
file handles it closed. -/
def cache_pack (cache : List PackCacheEntry) (packidx : Packidx)
    (packfile path : Nat) : List PackCacheEntry × List Nat :=
  if cache.length < GOT_PACK_CACHE_SIZE then
    (cache ++ [⟨packidx, packfile, path⟩], [])
  else
    (⟨packidx, packfile, path⟩ :: cache.take (GOT_PACK_CACHE_SIZE - 1),
     (cache.getLast?).elim [] (fun e => [e.packfile]))

/-- The cache-search loop of `search_packidx` (lines 473-484): scan the
occupied slots in order and return the first index containing `id`,
together with the object's position in it.  The cache itself is not
modified by a hit. -/
def search_pack_cache (cache : List PackCacheEntry) (id : List Nat) :
    Option (Packidx × Nat) :=
  match cache with
  | [] => none
  | e :: rest =>
    match get_object_idx e.packidx id with
    | some idx => some (e.packidx, idx)
    | none => search_pack_cache rest id

/-- `search_packidx` (lines 462-529): search the pack cache first; on a
hit return a copy of the cached index and leave the repository state
untouched.  On a miss, fall through to the filesystem scan of
`objects/pack/` (directory enumeration, `got_packidx_open` on each
`.idx`, `cache_pack` on a match), abstracted as the `fsSearch`
parameter acting on the cache state. -/
def search_packidx
    (fsSearch : List PackCacheEntry →
      Except GotErr (Packidx × Nat) × List PackCacheEntry)
    (cache : List PackCacheEntry) (id : List Nat) :
    Except GotErr (Packidx × Nat) × List PackCacheEntry :=
  match search_pack_cache cache id with
  | some r => (.ok r, cache)
  | none => fsSearch cache

/-! ## Delta chains and `resolve_delta_chain`
(`lib/pack.c` lines 691-852)

A chain is a `SIMPLEQ` of `struct got_delta` entries plus the `nentries`
counter; `add_delta` inserts at the head (`SIMPLEQ_INSERT_HEAD`).
Object type codes follow the pack encoding (spec section 6): 1 commit,
2 tree, 3 blob, 4 tag, 6 offset delta, 7 ref delta. -/

def GOT_OBJ_TYPE_COMMIT : Nat := 1
def GOT_OBJ_TYPE_TREE : Nat := 2
def GOT_OBJ_TYPE_BLOB : Nat := 3
def GOT_OBJ_TYPE_TAG : Nat := 4
def GOT_OBJ_TYPE_OFFSET_DELTA : Nat := 6
def GOT_OBJ_TYPE_REF_DELTA : Nat := 7

/-- The four plain object types, exactly the cases the `switch` of
`resolve_delta_chain` treats as a terminal base. -/
def isPlainType (t : Nat) : Bool :=
  t = GOT_OBJ_TYPE_COMMIT || t = GOT_OBJ_TYPE_TREE ||
  t = GOT_OBJ_TYPE_BLOB || t = GOT_OBJ_TYPE_TAG

/-- `struct got_delta` (one chain entry). -/
structure GotDelta where
  path_packfile : Nat
  offset : Int
  tslen : Nat
  delta_type : Nat
  delta_size : Nat
  data_offset : Int
deriving Repr, DecidableEq

/-- `struct got_delta_chain`: entry list (head = `SIMPLEQ` front) and
the `nentries` counter. -/
structure DeltaChain where
  entries : List GotDelta
  nentries : Nat
deriving Repr, DecidableEq

def emptyDeltaChain : DeltaChain := ⟨[], 0⟩

/-- `add_delta` (lines 695-710): allocate the entry and insert it at the
head of the chain (allocation failure is not modelled). -/
def add_delta (deltas : DeltaChain) (path : Nat) (delta_offset : Int)
    (tslen delta_type delta_size : Nat) (delta_data_offset : Int) :
    DeltaChain :=
  ⟨⟨path, delta_offset, tslen, delta_type, delta_size, delta_data_offset⟩
      :: deltas.entries,
   deltas.nentries + 1⟩

/-- Abstraction of the base lookup performed by `resolve_ref_delta`
(lines 783-807): `search_packidx` over the repository,
`get_object_offset` in the found index (its `-1` sentinel becomes
`GOT_ERR_BAD_PACKIDX` there), and `open_packfile` on the matching pack.
Given the 20-byte base id it yields the base pack's bytes, its path and
the base object's offset, or the error those steps produce. -/
def RefLookup : Type := List Nat → Except GotErr (List Nat × Nat × Int)

/-- `resolve_delta_chain` (lines 821-852) together with its two helpers
`resolve_offset_delta` (lines 712-749) and `resolve_ref_delta`
(lines 751-819).  The C function recurses with no depth counter of any
kind; `fuel` is the embedding's recursion budget, and a `none` result
means the C recursion has not returned within that budget (for inputs
on which every budget yields `none`, the C code never returns).
`pf`/`pos` are the current pack's bytes and file position (the byte
after the object's type+size header), mirroring the `FILE *` cursor. -/
def resolve_delta_chain (lookup : RefLookup) (deltas : DeltaChain)
    (pf : List Nat) (pos : Nat) (path : Nat) (delta_offset : Int)
    (tslen delta_type delta_size : Nat) :
    Nat → Option (Except GotErr DeltaChain)
  | 0 => none
  | fuel + 1 =>
    if isPlainType delta_type then
      -- plain types are the final delta base; recursion ends
      some (.ok (add_delta deltas path delta_offset tslen delta_type
        delta_size 0))
    else if delta_type = GOT_OBJ_TYPE_OFFSET_DELTA then
      match parse_negative_offset pf pos with
      | .error e => some (.error e)
      | .ok (negoffset, negofflen) =>
        -- the base object must live in the same pack file
        let base_offset := delta_offset - negoffset
        if base_offset ≤ 0 then some (.error .BadPackfile)
        else
          let delta_data_offset : Int := ((pos + negofflen : Nat) : Int)
          let deltas' := add_delta deltas path delta_offset tslen
            delta_type delta_size delta_data_offset
          match parse_object_type_and_size pf base_offset.toNat with
          | .error e => some (.error e)
          | .ok (base_type, base_size, base_tslen) =>
            resolve_delta_chain lookup deltas' pf
              (base_offset.toNat + base_tslen) path base_offset base_tslen
              base_type base_size fuel
    else if delta_type = GOT_OBJ_TYPE_REF_DELTA then
      match readBytes pf pos 20 with
      | none => some (.error .Io)
      | some id =>
        let delta_data_offset : Int := ((pos + 20 : Nat) : Int)
        let deltas' := add_delta deltas path delta_offset tslen
          delta_type delta_size delta_data_offset
        match lookup id with
        | .error e => some (.error e)
        | .ok (base_pf, base_path, base_offset) =>
          match parse_object_type_and_size base_pf base_offset.toNat with
          | .error e => some (.error e)
          | .ok (base_type, base_size, base_tslen) =>
            resolve_delta_chain lookup deltas' base_pf
              (base_offset.toNat + base_tslen) base_path base_offset
              base_tslen base_type base_size fuel
    else some (.error .NotImpl)

/-! ## Delta cache (`repo->delta_cache`, `lib/pack.c` lines 1031-1139)

A fixed array of per-pack buckets, each a fixed array of
`{data_offset, delta_buf, delta_len}` entries.  Every scan breaks at the
first free slot (`path_packfile == NULL` for buckets,
`data_offset == 0` for entries), so occupied slots form a prefix and
both levels are modelled as lists.  Capacities live in
`got_repository_lib.h`, which is not under src/; the spec fixes them at
4 buckets of 256 entries. -/

/-- Modelled from the spec: `nitems(repo->delta_cache)`. -/
def GOT_DELTA_CACHE_BUCKETS : Nat := 4

/-- Modelled from the spec: `nitems(cache->deltas)`. -/
def GOT_DELTA_CACHE_SIZE : Nat := 256

structure DeltaCacheEntry where
  data_offset : Int
  delta_buf : List Nat
  delta_len : Nat
deriving Repr, DecidableEq

structure DeltaCacheBucket where
  path_packfile : Nat
  deltas : List DeltaCacheEntry
deriving Repr, DecidableEq

/-- `add_delta_cache_entry` (lines 1040-1066): the entry goes into the
first free slot; when the bucket is full the last entry is cleared,
entries shift toward the tail and the new entry lands in slot 0. -/
def add_delta_cache_entry (bucket : List DeltaCacheEntry)
    (data_offset : Int) (buf : List Nat) (len : Nat) :
    List DeltaCacheEntry :=
  if bucket.length < GOT_DELTA_CACHE_SIZE then
    bucket ++ [⟨data_offset, buf, len⟩]
  else ⟨data_offset, buf, len⟩ :: bucket.take (GOT_DELTA_CACHE_SIZE - 1)

/-- The bucket-search loop of `cache_delta` (lines 1075-1082): update
the first bucket whose path matches, keeping the others in place. -/
def cache_delta_scan (data_offset : Int) (buf : List Nat) (len path : Nat) :
    List DeltaCacheBucket → Option (List DeltaCacheBucket)
  | [] => none
  | b :: rest =>
    if b.path_packfile = path then
      some (⟨b.path_packfile, add_delta_cache_entry b.deltas data_offset buf len⟩ :: rest)
    else (cache_delta_scan data_offset buf len path rest).map (b :: ·)

/-- `cache_delta` (lines 1068-1105): find the bucket for `path`; when
none exists, start a new bucket in the first free slot, evicting the
last bucket (and clearing its entries) if all slots are taken
(allocation failure of `strdup` is not modelled). -/
def cache_delta (cache : List DeltaCacheBucket) (data_offset : Int)
    (buf : List Nat) (len path : Nat) : List DeltaCacheBucket :=
  match cache_delta_scan data_offset buf len path cache with
  | some cache' => cache'
  | none =>
    if cache.length < GOT_DELTA_CACHE_BUCKETS then
      cache ++ [⟨path, add_delta_cache_entry [] data_offset buf len⟩]
    else ⟨path, add_delta_cache_entry [] data_offset buf len⟩
      :: cache.take (GOT_DELTA_CACHE_BUCKETS - 1)

/-- The entry-search loop of `get_cached_delta` (lines 1129-1138). -/
def delta_bucket_lookup (doff : Int) :
    List DeltaCacheEntry → Option (List Nat × Nat)
  | [] => none
  | e :: rest =>
    if e.data_offset = doff then some (e.delta_buf, e.delta_len)
    else delta_bucket_lookup doff rest

/-- `get_cached_delta` (lines 1107-1139): locate the bucket for `path`,
then the entry for `data_offset`; a miss at either level reports no
cached delta. -/
def get_cached_delta (cache : List DeltaCacheBucket) (doff : Int)
    (path : Nat) : Option (List Nat × Nat) :=
  match cache with
  | [] => none
  | b :: rest =>
    if b.path_packfile = path then delta_bucket_lookup doff b.deltas
    else get_cached_delta rest doff path

/-! ## Delta application (spec-modelled)

`got_delta_get_sizes`, `got_delta_apply_in_mem` and `got_delta_apply`
live in the delta library, which is not under src/.  They are modelled
from spec section 4.4: the delta stream opens with two variable-length
sizes (7 value bits per byte, LSB-first, top bit continues), followed by
copy (`c & 0x80`) and insert (`c != 0`) commands; a zero command byte,
a mismatched base size, an out-of-range copy, a truncated stream, or a
final length differing from the declared result size is a
`BadDeltaChain` error. -/

/-- Modelled from the spec: variable-length size field of the delta
stream.  Returns `(value, next position)`. -/
def delta_varint_go (buf : List Nat) (pos sh acc : Nat) :
    Nat → Option (Nat × Nat)
  | 0 => none
  | fuel + 1 =>
    match buf.get? pos with
    | none => none
    | some b =>
      let acc' := acc ||| ((b &&& 0x7f) <<< (7 * sh))
      if b &&& 0x80 ≠ 0 then delta_varint_go buf (pos + 1) (sh + 1) acc' fuel
      else some (acc', pos + 1)

def delta_varint (buf : List Nat) (pos : Nat) : Option (Nat × Nat) :=
  delta_varint_go buf pos 0 0 10

/-- Modelled from the spec: `got_delta_get_sizes` reads the base and
result sizes from the head of an inflated delta stream. -/
def got_delta_get_sizes (delta : List Nat) : Except GotErr (Nat × Nat) :=
  match delta_varint delta 0 with
  | none => .error .BadDeltaChain
  | some (base_size, p1) =>
    match delta_varint delta p1 with
    | none => .error .BadDeltaChain
    | some (result_size, _) => .ok (base_size, result_size)

/-- Modelled from the spec: decode one variable-width field of a copy
command.  `sel` lists `(bit, shift)` pairs; every set bit of `c`
consumes the next delta byte into the indicated byte position. -/
def copy_field_go (delta : List Nat) (c : Nat) :
    List (Nat × Nat) → Nat → Nat → Option (Nat × Nat)
  | [], pos, acc => some (acc, pos)
  | (k, sh) :: sel, pos, acc =>
    if c >>> k &&& 1 = 1 then
      match delta.get? pos with
      | none => none
      | some b => copy_field_go delta c sel (pos + 1) (acc ||| (b <<< sh))
    else copy_field_go delta c sel pos acc

/-- Modelled from the spec: the command loop of delta application.
Copies come from `base`, inserts from the delta stream; the loop ends
when the stream is exhausted.  Each command consumes at least one byte,
so `delta.length + 1` fuel always suffices. -/
def delta_apply_go (base delta : List Nat) (pos : Nat) (out : List Nat) :
    Nat → Except GotErr (List Nat)
  | 0 => .error .BadDeltaChain
  | fuel + 1 =>
    match delta.get? pos with
    | none => .ok out
    | some c =>
      if c &&& 0x80 ≠ 0 then
        match copy_field_go delta c [(0, 0), (1, 8), (2, 16), (3, 24)] (pos + 1) 0 with
        | none => .error .BadDeltaChain
        | some (offset, pos1) =>
          match copy_field_go delta c [(4, 0), (5, 8), (6, 16)] pos1 0 with
          | none => .error .BadDeltaChain
          | some (sz0, pos2) =>
            let sz := if sz0 = 0 then 0x10000 else sz0
            if offset + sz ≤ base.length then
              delta_apply_go base delta pos2
                (out ++ (base.drop offset).take sz) fuel
            else .error .BadDeltaChain
      else if c ≠ 0 then
        match readBytes delta (pos + 1) c with
        | none => .error .BadDeltaChain
        | some lits => delta_apply_go base delta (pos + 1 + c) (out ++ lits) fuel
      else .error .BadDeltaChain

/-- Modelled from the spec: `got_delta_apply_in_mem(base_buf, delta_buf,
delta_len, accum_buf, &accum_size)` — apply the delta stream
(`delta_len` bytes of `buf`) to `base`, producing the result bytes
written to the accumulator. -/
def got_delta_apply_in_mem (base buf : List Nat) (len : Nat) :
    Except GotErr (List Nat) :=
  let delta := buf.take len
  match delta_varint delta 0 with
  | none => .error .BadDeltaChain
  | some (base_size, p1) =>
    match delta_varint delta p1 with
    | none => .error .BadDeltaChain
    | some (result_size, p2) =>
      if base_size ≠ base.length then .error .BadDeltaChain
      else
        match delta_apply_go base delta p2 [] (delta.length + 1) with
        | .error e => .error e
        | .ok res =>
          if res.length ≠ result_size then .error .BadDeltaChain
          else .ok res

/-- Modelled from the spec: `got_delta_apply(base_file, delta_buf,
delta_len, outfile)` — the file variant performs the same computation
with the base read from a file and the result bytes streamed to the
output file; its result is the byte content written there. -/
def got_delta_apply (base_file buf : List Nat) (len : Nat) :
    Except GotErr (List Nat) :=
  got_delta_apply_in_mem base_file buf len

/-! ## Materialization (`lib/pack.c` lines 979-1472)

zlib inflation (`got_zbuf_lib`) is not under src/.  Modelled from the
spec: a zlib stream is self-delimiting, so the inflated content is a
function of the pack bytes and the start position; `inflate pos` is that
content (`none` = inflation failure), used identically by
`got_inflate_to_mem` and `got_inflate_to_file` (the latter writes the
same bytes to its output file).  Inflation failure surfaces as an error
from the zlib wrapper; the claims only distinguish error from success,
so the embedding uses `Io` for it. -/

def Inflate : Type := Nat → Option (List Nat)

/-- `get_delta_sizes` (lines 979-999): seek to the delta's data offset,
inflate the delta stream and read the two sizes from it. -/
def get_delta_sizes (inflate : Inflate) (delta : GotDelta) :
    Except GotErr (Nat × Nat) :=
  match inflate delta.data_offset.toNat with
  | none => .error .Io
  | some buf => got_delta_get_sizes buf

/-- The fold of `get_delta_chain_max_size` (lines 1001-1029); carries
the current maximum together with `base_size`/`result_size`, which the
C code declares once and leaves stale across plain entries. -/
def max_size_go (inflate : Inflate) :
    List GotDelta → Nat → Nat → Nat → Except GotErr Nat
  | [], maxv, _, _ => .ok maxv
  | d :: rest, maxv, _bs, rs =>
    if isPlainType d.delta_type then
      max_size_go inflate rest (max (max maxv d.delta_size) rs) d.delta_size rs
    else
      match get_delta_sizes inflate d with
      | .error e => .error e
      | .ok (bs', rs') =>
        max_size_go inflate rest (max (max maxv bs') rs') bs' rs'

/-- `get_delta_chain_max_size`: the maximum of every base and result
size occurring along the chain. -/
def get_delta_chain_max_size (inflate : Inflate) (entries : List GotDelta) :
    Except GotErr Nat :=
  max_size_go inflate entries 0 0 0

/-- Modelled from the spec: `GOT_DELTA_RESULT_SIZE_CACHED_MAX` is
defined in the delta library header, not under src/; the spec gives
8 MiB as the in-memory threshold.  The agreement theorems hold for any
value. -/
def GOT_DELTA_RESULT_SIZE_CACHED_MAX : Nat := 8388608

/-- Fetch one delta's inflated stream: `get_cached_delta`, on a miss
seek + `got_inflate_to_mem` + `cache_delta` (shared shape of lines
1223-1242 and 1353-1372). -/
def fetch_delta (inflate : Inflate) (cache : List DeltaCacheBucket)
    (path : Nat) (d : GotDelta) :
    Except GotErr (List Nat × Nat × List DeltaCacheBucket) :=
  match get_cached_delta cache d.data_offset path with
  | some (buf, len) => .ok (buf, len, cache)
  | none =>
    match inflate d.data_offset.toNat with
    | none => .error .Io
    | some buf =>
      .ok (buf, buf.length, cache_delta cache d.data_offset buf buf.length path)

/-- The `SIMPLEQ_FOREACH` loop of `dump_delta_chain_to_mem`
(lines 1315-1387).  State: remaining entries, the counter `n`, the base
and accumulator buffers, `accum_size`, and the delta cache.  Returns the
error slot and the final accumulator, size and cache.  The C
accumulator starts as uninitialized `malloc` memory and `accum_size`
starts uninitialized; they are passed in by the caller and are
overwritten by the first application. -/
def dump_mem_go (inflate : Inflate) (path nentries : Nat) :
    List GotDelta → Nat → List Nat → List Nat → Nat →
    List DeltaCacheBucket →
    Option GotErr × List Nat × Nat × List DeltaCacheBucket
  | [], _, _, accum, asize, cache => (none, accum, asize, cache)
  | d :: rest, n, base, accum, asize, cache =>
    if n = 0 then
      if ¬ isPlainType d.delta_type then (some .BadDeltaChain, accum, asize, cache)
      else
        match inflate (d.offset + (d.tslen : Int)).toNat with
        | none => (some .Io, accum, asize, cache)
        | some baseB => dump_mem_go inflate path nentries rest 1 baseB accum asize cache
    else
      match fetch_delta inflate cache path d with
      | .error e => (some e, accum, asize, cache)
      | .ok (dbuf, dlen, cache') =>
        match got_delta_apply_in_mem base dbuf dlen with
        | .error e => (some e, accum, asize, cache')
        | .ok res =>
          if n + 1 < nentries then
            -- accumulated delta becomes the new base (buffer swap)
            dump_mem_go inflate path nentries rest (n + 1) res base res.length cache'
          else
            dump_mem_go inflate path nentries rest (n + 1) base res res.length cache'

/-- `dump_delta_chain_to_mem` (lines 1289-1400): `*outbuf`/`*outlen`
are `NULL`/0 from entry; on success they receive the accumulator and
its size, on any error they are reset to `NULL`/0. -/
def dump_delta_chain_to_mem (inflate : Inflate) (deltas : DeltaChain)
    (path : Nat) (cache : List DeltaCacheBucket) :
    Option GotErr × Option (List Nat) × Nat × List DeltaCacheBucket :=
  if deltas.entries = [] then (some .BadDeltaChain, none, 0, cache)
  else
    match get_delta_chain_max_size inflate deltas.entries with
    | .error e => (some e, none, 0, cache)
    | .ok _max_size =>
      match dump_mem_go inflate path deltas.nentries deltas.entries 0 [] [] 0 cache with
      | (some e, _, _, cache') => (some e, none, 0, cache')
      | (none, accum, asize, cache') => (none, some accum, asize, cache')

/-- The loop of `dump_delta_chain_to_file` in its in-memory mode
(lines 1178-1271 with `base_buf` in use, i.e.
`max_size < GOT_DELTA_RESULT_SIZE_CACHED_MAX`); the final accumulator
is written to the output file afterwards. -/
def dump_file_mem_go (inflate : Inflate) (path nentries : Nat) :
    List GotDelta → Nat → List Nat → List Nat → Nat →
    List DeltaCacheBucket →
    Option GotErr × List Nat × Nat × List DeltaCacheBucket
  | [], _, _, accum, asize, cache => (none, accum, asize, cache)
  | d :: rest, n, base, accum, asize, cache =>
    if n = 0 then
      if ¬ isPlainType d.delta_type then (some .BadDeltaChain, accum, asize, cache)
      else
        match inflate (d.offset + (d.tslen : Int)).toNat with
        | none => (some .Io, accum, asize, cache)
        | some baseB => dump_file_mem_go inflate path nentries rest 1 baseB accum asize cache
    else
      match fetch_delta inflate cache path d with
      | .error e => (some e, accum, asize, cache)
      | .ok (dbuf, dlen, cache') =>
        match got_delta_apply_in_mem base dbuf dlen with
        | .error e => (some e, accum, asize, cache')
        | .ok res =>
          if n + 1 < nentries then
            dump_file_mem_go inflate path nentries rest (n + 1) res base res.length cache'
          else
            dump_file_mem_go inflate path nentries rest (n + 1) base res res.length cache'

/-- The loop of `dump_delta_chain_to_file` in its temp-file mode
(lines 1178-1271 with `base_file`/`accum_file`): the base is inflated
to `base_file`; each application reads the base file and writes to
`accum_file`, except the final one (`++n < deltas->nentries` false),
which writes directly to the output file; the base and accumulator
files swap after each non-final application. -/
def dump_file_file_go (inflate : Inflate) (path nentries : Nat) :
    List GotDelta → Nat → List Nat → List Nat → List Nat →
    List DeltaCacheBucket →
    Option GotErr × List Nat × List DeltaCacheBucket
  | [], _, _, _, outf, cache => (none, outf, cache)
  | d :: rest, n, basef, accumf, outf, cache =>
    if n = 0 then
      if ¬ isPlainType d.delta_type then (some .BadDeltaChain, outf, cache)
      else
        match inflate (d.offset + (d.tslen : Int)).toNat with
        | none => (some .Io, outf, cache)
        | some baseB => dump_file_file_go inflate path nentries rest 1 baseB accumf outf cache
    else
      match fetch_delta inflate cache path d with
      | .error e => (some e, outf, cache)
      | .ok (dbuf, dlen, cache') =>
        match got_delta_apply basef dbuf dlen with
        | .error e => (some e, outf, cache')
        | .ok res =>
          if n + 1 < nentries then
            -- wrote accum_file; swap makes it the new base file
            dump_file_file_go inflate path nentries rest (n + 1) res basef outf cache'
          else
            -- final application wrote the output file
            dump_file_file_go inflate path nentries rest (n + 1) basef accumf res cache'

/-- `dump_delta_chain_to_file` (lines 1141-1287).  Returns the error
slot, the output file's byte content, and the delta cache.  In the
in-memory mode the `done:` block writes `accum_size` bytes of the
accumulator to the output file (file writes themselves cannot fail on
the byte-list model). -/
def dump_delta_chain_to_file (inflate : Inflate) (deltas : DeltaChain)
    (path : Nat) (cache : List DeltaCacheBucket) :
    Option GotErr × List Nat × List DeltaCacheBucket :=
  if deltas.entries = [] then (some .BadDeltaChain, [], cache)
  else
    match get_delta_chain_max_size inflate deltas.entries with
    | .error e => (some e, [], cache)
    | .ok max_size =>
      if max_size < GOT_DELTA_RESULT_SIZE_CACHED_MAX then
        match dump_file_mem_go inflate path deltas.nentries deltas.entries 0 [] [] 0 cache with
        | (err, accum, asize, cache') => (err, accum.take asize, cache')
      else
        match dump_file_file_go inflate path deltas.nentries deltas.entries 0 [] [] [] cache with
        | (err, outf, cache') => (err, outf, cache')

/-! ## `got_packfile_extract_object` and
`got_packfile_extract_object_to_mem` (lines 1402-1472) -/

/-- Modelled from the spec: the object flag bits are defined in the
object library header, not under src/; `open_plain_object` and
`open_delta_object` use `Packed` and `Deltified` as independent bits. -/
def GOT_OBJ_FLAG_PACKED : Nat := 0x01
def GOT_OBJ_FLAG_DELTIFIED : Nat := 0x02

/-- `struct got_object` (the fields the extraction paths read). -/
structure GotObject where
  obj_type : Nat
  flags : Nat
  hdrlen : Nat
  size : Nat
  pack_offset : Int
  path_packfile : Nat
  deltas : DeltaChain
deriving Repr, DecidableEq

/-- Result of `got_packfile_extract_object`: error slot, whether
`got_opentemp` ran, the returned temp file's content (`none` when the
call failed and the temp file was closed), and the delta cache. -/
structure ExtractFileResult where
  err : Option GotErr
  tempCreated : Bool
  outfile : Option (List Nat)
  cache : List DeltaCacheBucket
deriving Repr, DecidableEq

/-- `got_packfile_extract_object` (lines 1402-1440).  `fs` maps a pack
path to its bytes (`none` = `fopen` failure); `got_opentemp` is assumed
to succeed.  An unpacked object is rejected before the temp file is
created or any file is opened. -/
def got_packfile_extract_object (inflate : Inflate)
    (fs : Nat → Option (List Nat)) (obj : GotObject)
    (cache : List DeltaCacheBucket) : ExtractFileResult :=
  if obj.flags &&& GOT_OBJ_FLAG_PACKED = 0 then
    ⟨some .ObjNotPacked, false, none, cache⟩
  else
    match fs obj.path_packfile with
    | none => ⟨some .Errno, true, none, cache⟩
    | some _pf =>
      if obj.flags &&& GOT_OBJ_FLAG_DELTIFIED = 0 then
        match inflate obj.pack_offset.toNat with
        | none => ⟨some .Io, true, none, cache⟩
        | some bytes => ⟨none, true, some bytes, cache⟩
      else
        match dump_delta_chain_to_file inflate obj.deltas obj.path_packfile cache with
        | (some e, _, cache') => ⟨some e, true, none, cache'⟩
        | (none, outf, cache') => ⟨none, true, some outf, cache'⟩

/-- Result of `got_packfile_extract_object_to_mem`: error slot, the
final values of the `*buf`/`*len` out-parameters, and the delta cache. -/
structure ExtractMemResult where
  err : Option GotErr
  buf : Option (List Nat)
  len : Nat
  cache : List DeltaCacheBucket
deriving Repr, DecidableEq

/-- `got_packfile_extract_object_to_mem` (lines 1442-1472).  `buf0` and
`len0` are the caller's values of the out-parameters, returned unchanged
on the paths that fail before anything is written to them.  The
non-deltified path's `got_inflate_to_mem` sets them on success; its
failure behaviour is outside src/ and is modelled as leaving them
unchanged. -/
def got_packfile_extract_object_to_mem (inflate : Inflate)
    (fs : Nat → Option (List Nat)) (obj : GotObject)
    (cache : List DeltaCacheBucket) (buf0 : Option (List Nat))
    (len0 : Nat) : ExtractMemResult :=
  if obj.flags &&& GOT_OBJ_FLAG_PACKED = 0 then
    ⟨some .ObjNotPacked, buf0, len0, cache⟩
  else
    match fs obj.path_packfile with
    | none => ⟨some .Errno, buf0, len0, cache⟩
    | some _pf =>
      if obj.flags &&& GOT_OBJ_FLAG_DELTIFIED = 0 then
        match inflate obj.pack_offset.toNat with
        | none => ⟨some .Io, buf0, len0, cache⟩
        | some bytes => ⟨none, some bytes, bytes.length, cache⟩
      else
        match dump_delta_chain_to_mem inflate obj.deltas obj.path_packfile cache with
        | (err, buf, len, cache') => ⟨err, buf, len, cache'⟩

/-! # Theorems -/

/-! ## Helper lemmas -/

theorem got_object_id_cmp_eq_zero_iff :
    ∀ a b : List Nat, got_object_id_cmp a b = 0 ↔ a = b := by
  intro a
  induction a with
  | nil =>
    intro b
    cases b <;> simp [got_object_id_cmp]
  | cons x xs ih =>
    intro b
    cases b with
    | nil => simp [got_object_id_cmp]
    | cons y ys =>
      by_cases hxy : x < y
      · simp only [got_object_id_cmp, if_pos hxy]
        constructor
        · intro h; omega
        · intro h; injection h; omega
      · by_cases hyx : y < x
        · simp only [got_object_id_cmp, if_neg hxy, if_pos hyx]
          constructor
          · intro h; omega
          · intro h; injection h; omega
        · have hxyeq : x = y := by omega
          simp [got_object_id_cmp, hxy, hyx, hxyeq, ih]

theorem find_go_some (p : Packidx) (id : List Nat) :
    ∀ fuel i j, find_go p id i fuel = some j →
      i ≤ j ∧ j < i + fuel ∧ p.sorted_ids.getD j [] = id ∧
        ∀ k, i ≤ k → k < j → p.sorted_ids.getD k [] ≠ id := by
  intro fuel
  induction fuel with
  | zero => intro i j h; simp [find_go] at h
  | succ n ih =>
    intro i j h
    rw [find_go] at h
    by_cases hc : got_object_id_cmp id (p.sorted_ids.getD i []) = 0
    · rw [if_pos hc] at h
      injection h with h
      subst h
      refine ⟨le_refl _, by omega, ?_, by omega⟩
      exact ((got_object_id_cmp_eq_zero_iff _ _).mp hc).symm
    · rw [if_neg hc] at h
      obtain ⟨h1, h2, h3, h4⟩ := ih (i + 1) j h
      refine ⟨by omega, by omega, h3, ?_⟩
      intro k hk1 hk2
      rcases Nat.eq_or_lt_of_le hk1 with hk | hk
      · subst hk
        intro he
        exact hc ((got_object_id_cmp_eq_zero_iff _ _).mpr he.symm)
      · exact h4 k hk hk2

theorem find_go_none (p : Packidx) (id : List Nat) :
    ∀ fuel i, find_go p id i fuel = none →
      ∀ k, i ≤ k → k < i + fuel → p.sorted_ids.getD k [] ≠ id := by
  intro fuel
  induction fuel with
  | zero => intro i _ k hk1 hk2; omega
  | succ n ih =>
    intro i h k hk1 hk2
    rw [find_go] at h
    by_cases hc : got_object_id_cmp id (p.sorted_ids.getD i []) = 0
    · rw [if_pos hc] at h; exact absurd h (by simp)
    · rw [if_neg hc] at h
      rcases Nat.eq_or_lt_of_le hk1 with hk | hk
      · subst hk
        intro he
        exact hc ((got_object_id_cmp_eq_zero_iff _ _).mpr he.symm)
      · exact ih (i + 1) h k hk (by omega)

theorem list_get?_of_lt (f : List Nat) (pos : Nat) (h : pos < f.length) :
    f.get? pos = some (f.getD pos 0) := by
  rw [List.getD_eq_getElem?_getD, List.get?_eq_getElem?]
  cases hx : f[pos]? with
  | none =>
    rw [List.getElem?_eq_none_iff] at hx
    omega
  | some v => simp

theorem list_get?_of_ge (f : List Nat) (pos : Nat) (h : f.length ≤ pos) :
    f.get? pos = none := by
  rw [List.get?_eq_getElem?, List.getElem?_eq_none_iff]
  exact h

theorem parse_size_go_all_more (f : List Nat) :
    ∀ fuel pos i t s,
      (∀ k, k < fuel → pos + k < f.length ∧
        f.getD (pos + k) 0 &&& GOT_PACK_OBJ_SIZE_MORE ≠ 0) →
      parse_size_go f pos i t s fuel = .error .NoSpace := by
  intro fuel
  induction fuel with
  | zero => intro pos i t s _; rfl
  | succ n ih =>
    intro pos i t s h
    obtain ⟨hlt, hbit⟩ := h 0 (Nat.succ_pos n)
    rw [parse_size_go]
    rw [show pos + 0 = pos by ring] at hlt hbit
    rw [list_get?_of_lt f pos hlt]
    simp only [if_pos hbit]
    exact ih (pos + 1) (i + 1) _ _ (fun k hk => by
      have := h (k + 1) (by omega)
      constructor
      · omega
      · have hh := this.2
        rw [show pos + (k + 1) = pos + 1 + k by ring] at hh
        exact hh)

theorem parse_size_go_truncated (f : List Nat) :
    ∀ fuel pos i t s, 1 ≤ fuel → f.length < pos + fuel →
      (∀ k, pos + k < f.length →
        f.getD (pos + k) 0 &&& GOT_PACK_OBJ_SIZE_MORE ≠ 0) →
      parse_size_go f pos i t s fuel = .error .BadPackidx := by
  intro fuel
  induction fuel with
  | zero => intro pos i t s h; omega
  | succ n ih =>
    intro pos i t s _ hlen hbits
    rw [parse_size_go]
    by_cases hpos : pos < f.length
    · rw [list_get?_of_lt f pos hpos]
      have hbit := hbits 0 (by omega)
      rw [show pos + 0 = pos by ring] at hbit
      simp only [if_pos hbit]
      exact ih (pos + 1) (i + 1) _ _ (by omega) (by omega) (fun k hk => by
        have := hbits (k + 1) (by omega)
        rw [show pos + (k + 1) = pos + 1 + k by ring] at this
        exact this)
    · rw [list_get?_of_ge f pos (by omega)]

/-! ## Claim C7 -/

/-- C7, counterexample: the claim says both overlong (more than 10
bytes) and truncated type+size encodings fail with the `BadPackFile`
kind.  On eleven continuation bytes the code returns
`GOT_ERR_NO_SPACE`, and on a one-byte file ending inside the field it
returns `GOT_ERR_BAD_PACKIDX`; neither is `GOT_ERR_BAD_PACKFILE`. -/
theorem pack_C7_counterexample :
    parse_object_type_and_size (List.replicate 11 0x80) 0 = .error .NoSpace ∧
    parse_object_type_and_size [0x80] 0 = .error .BadPackidx ∧
    GotErr.NoSpace ≠ GotErr.BadPackfile ∧
    GotErr.BadPackidx ≠ GotErr.BadPackfile := by
  refine ⟨by decide, by decide, by decide, by decide⟩

/-- C7 (amended): decoding an object's variable-length type+size header
fails when the size encoding exceeds 10 bytes — but with the
`GOT_ERR_NO_SPACE` kind — and when the field is truncated by
end-of-file — but with the `GOT_ERR_BAD_PACKIDX` kind (`got_ferror` on
a stream without an OS error condition); `GOT_ERR_BAD_PACKFILE` is
returned in neither case. -/
theorem pack_C7_header_error_kinds (f : List Nat) (pos : Nat) :
    ((∀ k, k < 10 → pos + k < f.length ∧
        f.getD (pos + k) 0 &&& GOT_PACK_OBJ_SIZE_MORE ≠ 0) →
      parse_object_type_and_size f pos = .error .NoSpace) ∧
    (f.length < pos + 10 →
      (∀ k, pos + k < f.length →
        f.getD (pos + k) 0 &&& GOT_PACK_OBJ_SIZE_MORE ≠ 0) →
      parse_object_type_and_size f pos = .error .BadPackidx) := by
  constructor
  · intro h
    exact parse_size_go_all_more f 10 pos 0 0 0 h
  · intro hlen hbits
    exact parse_size_go_truncated f 10 pos 0 0 0 (by omega) hlen hbits

/-- Witness for C7: the amended theorem applied to the two concrete
encodings of the counterexample. -/
theorem pack_C7_header_error_kinds_witness :
    parse_object_type_and_size (List.replicate 11 0x80) 0 = .error .NoSpace ∧
    parse_object_type_and_size [0x80] 0 = .error .BadPackidx :=
  ⟨(pack_C7_header_error_kinds (List.replicate 11 0x80) 0).1 (by decide),
   (pack_C7_header_error_kinds [0x80] 0).2 (by decide)
     (by
       intro k hk
       have hk0 : k = 0 := by simpa using hk
       subst hk0
       decide)⟩

/-! ## Claim C8 -/

/-- A pack index with one object (`totobj = fanout[255] = 1`) whose
offset entry has the MSB set and indirection index 1, and whose
`large_offsets` table holds exactly `totobj = 1` entry (as
`got_packidx_open` allocates it). -/
def c8_packidx : Packidx :=
  ⟨List.replicate 256 1, [List.replicate 20 0], [0], [0x80000001], [42],
   List.replicate 20 0, List.replicate 20 0⟩

/-- C8: the claim (and the spec) requires the 31-bit indirection index
to be validated strictly below the number `M` of `large_offsets`
entries.  The code checks `idx > totobj`, so the indirection index
1 = `totobj` = `M` passes validation and `large_offsets[1]` is read one
element past the end of the table (`none` marks the out-of-bounds
access in the embedding) instead of producing the error result. -/
theorem pack_C8_large_offset_oob :
    (0x80000001 &&& GOT_PACKIDX_OFFSET_VAL_IS_LARGE_IDX ≠ 0) ∧
    (0x80000001 &&& GOT_PACKIDX_OFFSET_VAL_MASK = 1) ∧
    c8_packidx.large_offsets.length = 1 ∧
    get_object_offset c8_packidx 0 = none := by
  refine ⟨by decide, by decide, by decide, by decide⟩

/-! ## Claim C10 -/

/-- C10: calling either extraction operation on an object whose flags
lack the `Packed` bit fails immediately with `GOT_ERR_OBJ_NOT_PACKED`:
for any filesystem and inflation behaviour, the file variant returns
before `got_opentemp` runs and the memory variant returns with the
caller's out-parameter values and the delta cache untouched. -/
theorem pack_C10_not_packed (inflate : Inflate)
    (fs : Nat → Option (List Nat)) (obj : GotObject)
    (cache : List DeltaCacheBucket) (buf0 : Option (List Nat)) (len0 : Nat)
    (h : obj.flags &&& GOT_OBJ_FLAG_PACKED = 0) :
    got_packfile_extract_object inflate fs obj cache
      = ⟨some .ObjNotPacked, false, none, cache⟩ ∧
    got_packfile_extract_object_to_mem inflate fs obj cache buf0 len0
      = ⟨some .ObjNotPacked, buf0, len0, cache⟩ := by
  constructor
  · unfold got_packfile_extract_object
    rw [if_pos h]
  · unfold got_packfile_extract_object_to_mem
    rw [if_pos h]

/-- Witness for C10: a loose (non-packed) object with adversarial
filesystem and inflation oracles. -/
theorem pack_C10_not_packed_witness :
    got_packfile_extract_object (fun _ => none) (fun _ => none)
      ⟨1, 0, 0, 0, 0, 0, emptyDeltaChain⟩ []
      = ⟨some .ObjNotPacked, false, none, []⟩ ∧
    got_packfile_extract_object_to_mem (fun _ => none) (fun _ => none)
      ⟨1, 0, 0, 0, 0, 0, emptyDeltaChain⟩ [] (some [5]) 3
      = ⟨some .ObjNotPacked, some [5], 3, []⟩ :=
  pack_C10_not_packed (fun _ => none) (fun _ => none)
    ⟨1, 0, 0, 0, 0, 0, emptyDeltaChain⟩ [] (some [5]) 3 (by decide)

/-! ## Claim C3 -/

/-- Digest oracle validating the all-zero trailers of the concrete
`.idx` fixtures. -/
def zeroH : List Nat → List Nat := fun _ => List.replicate 20 0

/-- A loadable `.idx` file with one object whose id starts with byte 0
while `fanout[0] = 0`: the bucket for first byte 0 is empty, yet the id
is stored (at index 0, which lies at/after the bucket's end). -/
def c3_file : List Nat :=
  [0xff, 0x74, 0x4f, 0x63] ++ [0, 0, 0, 2]
    ++ ([0, 0, 0, 0] ++ (List.replicate 255 [0, 0, 0, 1]).flatten)
    ++ List.replicate 20 0
    ++ List.replicate 4 0
    ++ List.replicate 4 0
    ++ List.replicate 40 0

/-- The index `got_packidx_open` loads from `c3_file`. -/
def c3_packidx : Packidx :=
  ⟨0 :: List.replicate 255 1, [List.replicate 20 0], [0], [0], [],
   List.replicate 20 0, List.replicate 20 0⟩

set_option maxRecDepth 100000 in
/-- C3, counterexample: the claim says `find` consults only
`ids[fanout[b-1] .. fanout[b])` and an empty bucket yields `None`.  On
the loaded index `c3_packidx` the bucket of the all-zero id is
`[0, fanout[0]) = [0, 0)` — empty — yet `get_object_idx` keeps scanning
(`while (i < totobj)`) and returns index 0, which lies outside that
bucket. -/
theorem pack_C3_counterexample :
    got_packidx_open zeroH 100 c3_file = .ok c3_packidx ∧
    c3_packidx.fanout.getD 0 0 = 0 ∧
    get_object_idx c3_packidx (List.replicate 20 0) = some 0 := by
  refine ⟨by decide, by decide, by decide⟩

/-- C3 (amended): `get_object_idx` starts its linear scan at
`fanout[b−1]` (0 when `b = 0`, where `b = id[0]`) but bounds it by the
total object count, not by `fanout[b]`: it returns `Some i` exactly for
the first index at or after the start whose stored id equals `id`, and
returns `None` only when no index from the start to `totobj` matches —
so matches beyond the bucket's end are returned, and an empty bucket
does not force `None`. -/
theorem pack_C3_find_scan_characterization (p : Packidx) (id : List Nat) :
    (∀ i, get_object_idx p id = some i →
      (if id.headD 0 > 0 then p.fanout.getD (id.headD 0 - 1) 0 else 0) ≤ i ∧
      i < p.fanout.getD 255 0 ∧
      p.sorted_ids.getD i [] = id ∧
      ∀ j, (if id.headD 0 > 0 then p.fanout.getD (id.headD 0 - 1) 0 else 0) ≤ j →
        j < i → p.sorted_ids.getD j [] ≠ id) ∧
    (get_object_idx p id = none →
      ∀ j, (if id.headD 0 > 0 then p.fanout.getD (id.headD 0 - 1) 0 else 0) ≤ j →
        j < p.fanout.getD 255 0 → p.sorted_ids.getD j [] ≠ id) := by
  constructor
  · intro i h
    unfold get_object_idx at h
    obtain ⟨h1, h2, h3, h4⟩ := find_go_some p id _ _ i h
    refine ⟨h1, by omega, h3, h4⟩
  · intro h j hj1 hj2
    unfold get_object_idx at h
    exact find_go_none p id _ _ h j hj1 (by omega)

/-- Witness for C3: the characterization applied to the loaded fixture
index, where the scan finds the all-zero id at index 0. -/
theorem pack_C3_find_scan_characterization_witness :
    (if (List.replicate 20 0).headD 0 > 0 then
      c3_packidx.fanout.getD ((List.replicate 20 0).headD 0 - 1) 0 else 0) ≤ 0 ∧
    0 < c3_packidx.fanout.getD 255 0 ∧
    c3_packidx.sorted_ids.getD 0 [] = List.replicate 20 0 ∧
    ∀ j, (if (List.replicate 20 0).headD 0 > 0 then
      c3_packidx.fanout.getD ((List.replicate 20 0).headD 0 - 1) 0 else 0) ≤ j →
      j < 0 → c3_packidx.sorted_ids.getD j [] ≠ List.replicate 20 0 :=
  (pack_C3_find_scan_characterization c3_packidx (List.replicate 20 0)).1 0
    (by decide)

/-! ## Claim C2 -/

theorem verify_fanout_table_spec (l : List Nat)
    (h : verify_fanout_table l = true) :
    ∀ i, i < 254 → l.getD i 0 ≤ l.getD (i + 1) 0 := by
  intro i hi
  unfold verify_fanout_table at h
  rw [List.all_eq_true] at h
  simpa using h i (List.mem_range.mpr hi)

theorem packidx_finish_ok_fanout (H : List Nat → List Nat)
    (file : List Nat) (tpos : Nat) (hashed fanout : List Nat)
    (ids : List (List Nat)) (crc off large : List Nat) (p : Packidx)
    (h : packidx_finish H file tpos hashed fanout ids crc off large = .ok p) :
    p.fanout = fanout := by
  unfold packidx_finish at h
  split at h
  · exact Except.noConfusion h
  · dsimp only at h
    split at h
    · exact Except.noConfusion h
    · injection h with h
      rw [← h]

theorem packidx_read_tables_ok_fanout (H : List Nat → List Nat)
    (packfile_size : Nat) (file hashed0 fanout : List Nat) (p : Packidx)
    (h : packidx_read_tables H packfile_size file hashed0 fanout = .ok p) :
    p.fanout = fanout := by
  unfold packidx_read_tables at h
  repeat' split at h
  all_goals first
  | exact Except.noConfusion h
  | exact packidx_finish_ok_fanout _ _ _ _ _ _ _ _ _ _ h

/-- An `.idx` file that `got_packidx_open` accepts although it violates
both claimed invariants: `fanout[254] = 5 > 2 = fanout[255]` (the
verification loop stops at the pair `(253,254)`) and the two stored ids
are in strictly descending order (id sortedness is never checked). -/
def c2_file : List Nat :=
  [0xff, 0x74, 0x4f, 0x63] ++ [0, 0, 0, 2]
    ++ ((List.replicate 255 [0, 0, 0, 5]).flatten ++ [0, 0, 0, 2])
    ++ (List.replicate 20 1 ++ List.replicate 20 0)
    ++ List.replicate 8 0
    ++ List.replicate 8 0
    ++ List.replicate 40 0

/-- The index `got_packidx_open` loads from `c2_file`. -/
def c2_packidx : Packidx :=
  ⟨List.replicate 255 5 ++ [2],
   [List.replicate 20 1, List.replicate 20 0], [0, 0], [0, 0], [],
   List.replicate 20 0, List.replicate 20 0⟩

set_option maxRecDepth 100000 in
/-- Evaluation of `got_packidx_open` on the `c2_file` fixture. -/
theorem c2_open_eval : got_packidx_open zeroH 100 c2_file = .ok c2_packidx := by
  decide

/-- C2, counterexample: `got_packidx_open` succeeds on `c2_file`, whose
loaded index has neither strictly ascending ids nor a fanout table that
is non-decreasing over all 256 entries. -/
theorem pack_C2_counterexample :
    got_packidx_open zeroH 100 c2_file = .ok c2_packidx ∧
    ¬ ((∀ i, i < c2_packidx.sorted_ids.length - 1 →
          got_object_id_cmp (c2_packidx.sorted_ids.getD i [])
            (c2_packidx.sorted_ids.getD (i + 1) []) < 0) ∧
       (∀ i, i < 255 →
          c2_packidx.fanout.getD i 0 ≤ c2_packidx.fanout.getD (i + 1) 0)) := by
  refine ⟨c2_open_eval, by decide⟩

set_option maxRecDepth 100000 in
set_option maxHeartbeats 2000000 in
/-- C2 (amended): if `got_packidx_open` succeeds, the fanout table is
non-decreasing over the pairs `(i, i+1)` for `0 ≤ i < 254` — the pair
`(254, 255)` is outside the loop of `verify_fanout_table`, and strict
ascension of `ids` is not verified at all; a successfully loaded index
can violate both, as the counterexample shows. -/
theorem pack_C2_open_fanout_partial (H : List Nat → List Nat) (sz : Nat)
    (file : List Nat) (p : Packidx)
    (h : got_packidx_open H sz file = .ok p) :
    ∀ i, i < 254 → p.fanout.getD i 0 ≤ p.fanout.getD (i + 1) 0 := by
  unfold got_packidx_open at h
  split at h
  · exact Except.noConfusion h
  · split at h
    · exact Except.noConfusion h
    · split at h
      · exact Except.noConfusion h
      · split at h
        · exact Except.noConfusion h
        · split at h
          · exact Except.noConfusion h
          · split at h
            · rename_i hv
              have hfan := packidx_read_tables_ok_fanout _ _ _ _ _ _ h
              rw [← hfan] at hv
              exact verify_fanout_table_spec p.fanout hv
            · exact Except.noConfusion h

/-- Witness for C2: the partial fanout guarantee evaluated on the
loaded fixture index. -/
theorem pack_C2_open_fanout_partial_witness :
    c2_packidx.fanout.getD 0 0 ≤ c2_packidx.fanout.getD 1 0 :=
  pack_C2_open_fanout_partial zeroH 100 c2_file c2_packidx c2_open_eval 0
    (by decide)

/-! ## Claim C5 -/

/-- A one-object pack index whose single id is twenty copies of `b`. -/
def c5_idx (b : Nat) : Packidx :=
  ⟨List.replicate 256 1, [List.replicate 20 b], [0], [0], [], [], []⟩

/-- A two-entry pack cache; the all-zero id is found in the second
entry, not the first. -/
def c5_cache : List PackCacheEntry :=
  [⟨c5_idx 1, 50, 60⟩, ⟨c5_idx 0, 51, 61⟩]

set_option maxRecDepth 10000 in
/-- C5, counterexample: the claim says every cache hit moves the
matching entry to index 0.  A `search_packidx` hit on the second cache
entry returns that entry's index and leaves the cache exactly as it
was: the matching entry stays at index 1 and index 0 still holds the
other pack. -/
theorem pack_C5_counterexample :
    search_packidx (fun c => (.error .NoObj, c)) c5_cache
        (List.replicate 20 0)
      = (.ok (c5_idx 0, 0), c5_cache) ∧
    c5_cache.getD 0 ⟨c5_idx 0, 0, 0⟩ ≠ ⟨c5_idx 0, 51, 61⟩ ∧
    c5_cache.getD 1 ⟨c5_idx 0, 0, 0⟩ = ⟨c5_idx 0, 51, 61⟩ := by
  refine ⟨by decide, by decide, by decide⟩

theorem search_pack_cache_first_hit (id : List Nat) :
    ∀ (pre : List PackCacheEntry) (e : PackCacheEntry)
      (post : List PackCacheEntry) (idx : Nat),
      (∀ e2 ∈ pre, get_object_idx e2.packidx id = none) →
      get_object_idx e.packidx id = some idx →
      search_pack_cache (pre ++ e :: post) id = some (e.packidx, idx) := by
  intro pre
  induction pre with
  | nil =>
    intro e post idx _ he
    simp [search_pack_cache, he]
  | cons e0 rest ih =>
    intro e post idx hpre he
    have h0 : get_object_idx e0.packidx id = none := hpre e0 (by simp)
    simp only [List.cons_append, search_pack_cache, h0]
    exact ih e post idx (fun e2 h2 => hpre e2 (by simp [h2])) he

/-- C5 (amended): the pack cache never holds more than 4 entries; a
cache hit returns the matching index and leaves the cache unchanged (no
move-to-front happens on hits); and an insert into a full cache closes
the last entry's pack file handle, shifts the remaining entries toward
the tail, and places the new entry at index 0. -/
theorem pack_C5_cache_lru (cache : List PackCacheEntry) (p : Packidx)
    (pf path : Nat) (hlen : cache.length ≤ GOT_PACK_CACHE_SIZE) :
    ((cache_pack cache p pf path).1.length ≤ GOT_PACK_CACHE_SIZE ∧
     (cache.length = GOT_PACK_CACHE_SIZE →
       (cache_pack cache p pf path).1 = ⟨p, pf, path⟩ :: cache.dropLast ∧
       ∀ last, cache.getLast? = some last →
         (cache_pack cache p pf path).2 = [last.packfile])) ∧
    (∀ (fsSearch : List PackCacheEntry →
        Except GotErr (Packidx × Nat) × List PackCacheEntry)
       (pre : List PackCacheEntry) (e : PackCacheEntry)
       (post : List PackCacheEntry) (id : List Nat) (idx : Nat),
       cache = pre ++ e :: post →
       (∀ e2 ∈ pre, get_object_idx e2.packidx id = none) →
       get_object_idx e.packidx id = some idx →
       search_packidx fsSearch cache id = (.ok (e.packidx, idx), cache)) := by
  simp only [GOT_PACK_CACHE_SIZE] at hlen ⊢
  constructor
  · constructor
    · unfold cache_pack GOT_PACK_CACHE_SIZE
      split
      · rename_i hlt
        simp only [List.length_append, List.length_cons, List.length_nil]
        omega
      · simp only [List.length_cons]
        have : (cache.take (4 - 1)).length ≤ 3 := by
          rw [List.length_take]
          omega
        omega
    · intro hfull
      unfold cache_pack GOT_PACK_CACHE_SIZE
      rw [if_neg (by simp [hfull])]
      constructor
      · have hdl : cache.dropLast = cache.take 3 := by
          rw [List.dropLast_eq_take]
          rw [hfull]
        rw [hdl]
      · intro last hlast
        rw [hlast]
        rfl
  · intro fsSearch pre e post id idx hc hpre he
    subst hc
    unfold search_packidx
    rw [search_pack_cache_first_hit id pre e post idx hpre he]

set_option maxRecDepth 10000 in
/-- Witness for C5: the cache-behavior theorem instantiated on a full
four-entry cache and on the two-entry hit fixture. -/
theorem pack_C5_cache_lru_witness :
    ((cache_pack [⟨c5_idx 0, 10, 20⟩, ⟨c5_idx 1, 11, 21⟩, ⟨c5_idx 2, 12, 22⟩,
        ⟨c5_idx 3, 13, 23⟩] (c5_idx 4) 14 24).1.length ≤ GOT_PACK_CACHE_SIZE ∧
      (cache_pack [⟨c5_idx 0, 10, 20⟩, ⟨c5_idx 1, 11, 21⟩, ⟨c5_idx 2, 12, 22⟩,
        ⟨c5_idx 3, 13, 23⟩] (c5_idx 4) 14 24).1
        = ⟨c5_idx 4, 14, 24⟩ :: [⟨c5_idx 0, 10, 20⟩, ⟨c5_idx 1, 11, 21⟩,
            ⟨c5_idx 2, 12, 22⟩, ⟨c5_idx 3, 13, 23⟩].dropLast ∧
      (cache_pack [⟨c5_idx 0, 10, 20⟩, ⟨c5_idx 1, 11, 21⟩, ⟨c5_idx 2, 12, 22⟩,
        ⟨c5_idx 3, 13, 23⟩] (c5_idx 4) 14 24).2 = [13]) ∧
    search_packidx (fun c => (.error .NoObj, c)) c5_cache
      (List.replicate 20 0) = (.ok (c5_idx 0, 0), c5_cache) := by
  have hfull := pack_C5_cache_lru
    [⟨c5_idx 0, 10, 20⟩, ⟨c5_idx 1, 11, 21⟩, ⟨c5_idx 2, 12, 22⟩,
     ⟨c5_idx 3, 13, 23⟩] (c5_idx 4) 14 24 (by decide)
  have hhit := pack_C5_cache_lru c5_cache (c5_idx 4) 14 24 (by decide)
  refine ⟨⟨hfull.1.1, (hfull.1.2 (by decide)).1,
    (hfull.1.2 (by decide)).2 ⟨c5_idx 3, 13, 23⟩ (by decide)⟩, ?_⟩
  exact hhit.2 (fun c => (.error .NoObj, c)) [⟨c5_idx 1, 50, 60⟩]
    ⟨c5_idx 0, 51, 61⟩ [] (List.replicate 20 0) 0 (by decide) (by decide)
    (by decide)

/-! ## Claim C9 -/

theorem dump_delta_chain_to_mem_err (inflate : Inflate)
    (deltas : DeltaChain) (path : Nat) (cache : List DeltaCacheBucket)
    (e : GotErr) (buf : Option (List Nat)) (len : Nat)
    (cache' : List DeltaCacheBucket)
    (h : dump_delta_chain_to_mem inflate deltas path cache
      = (some e, buf, len, cache')) :
    buf = none ∧ len = 0 := by
  unfold dump_delta_chain_to_mem at h
  repeat' split at h
  all_goals injection h with h1 h2
  all_goals first
  | exact Option.noConfusion h1
  | (injection h2 with h2 h3
     injection h3 with h3 h4
     exact ⟨h2.symm, h3.symm⟩)

/-- A packed, deltified object with an empty delta chain and pack path
0; `dump_delta_chain_to_mem` rejects the empty chain. -/
def c9_obj : GotObject := ⟨3, 3, 0, 0, 0, 0, emptyDeltaChain⟩

/-- C9, counterexample: the claim says any extraction failure returns
with `*buf = NULL` and `*len = 0`.  When `fopen` on the object's pack
file fails, `got_packfile_extract_object_to_mem` returns the error
without writing the out-parameters: the caller's previous values
(`some [1]` and 7 here) survive. -/
theorem pack_C9_counterexample :
    got_packfile_extract_object_to_mem (fun _ => none) (fun _ => none)
        c9_obj [] (some [1]) 7
      = ⟨some .Errno, some [1], 7, []⟩ ∧
    (some [1] : Option (List Nat)) ≠ none ∧ (7 : Nat) ≠ 0 := by
  refine ⟨by decide, by decide, by decide⟩

/-- C9 (amended): for a packed, deltified object whose pack file opens
successfully, any failure of the extraction (bad chain, inflation
failure, cache error) returns with `*buf = NULL` and `*len = 0` —
`dump_delta_chain_to_mem` clears them on entry and resets them on every
error path.  If opening the pack file fails (or the object is not
packed), the error is returned with the out-parameters left
unmodified. -/
theorem pack_C9_extract_mem_failure_clears (inflate : Inflate)
    (fs : Nat → Option (List Nat)) (obj : GotObject)
    (cache : List DeltaCacheBucket) (buf0 : Option (List Nat)) (len0 : Nat)
    (e : GotErr) (bufr : Option (List Nat)) (lenr : Nat)
    (cr : List DeltaCacheBucket) (pf : List Nat)
    (hp : obj.flags &&& GOT_OBJ_FLAG_PACKED ≠ 0)
    (hd : obj.flags &&& GOT_OBJ_FLAG_DELTIFIED ≠ 0)
    (hfs : fs obj.path_packfile = some pf)
    (h : got_packfile_extract_object_to_mem inflate fs obj cache buf0 len0
      = ⟨some e, bufr, lenr, cr⟩) :
    bufr = none ∧ lenr = 0 := by
  unfold got_packfile_extract_object_to_mem at h
  rw [if_neg hp, hfs] at h
  rw [if_neg hd] at h
  rcases hdump : dump_delta_chain_to_mem inflate obj.deltas
    obj.path_packfile cache with ⟨err2, buf2, len2, cache2⟩
  rw [hdump] at h
  injection h with h1 h2 h3 h4
  rw [h1, h2, h3] at hdump
  exact dump_delta_chain_to_mem_err inflate obj.deltas obj.path_packfile
    cache e bufr lenr cache2 hdump

/-- Witness for C9: the empty-chain failure on an object whose pack
file opens fine ends with cleared out-parameters. -/
theorem pack_C9_extract_mem_failure_clears_witness :
    (none : Option (List Nat)) = none ∧ (0 : Nat) = 0 :=
  pack_C9_extract_mem_failure_clears (fun _ => none) (fun _ => some [])
    c9_obj [] (some [1]) 7 .BadDeltaChain none 0 [] [] (by decide)
    (by decide) (by decide) (by decide)

/-! ## Claim C1 -/

/-- A malformed pack: the object at offset 5 is an OFS delta
(header byte `0x65`: type 6, size 5) whose encoded negative offset is
the single byte `0x00`, i.e. zero.  Its base offset is then
`5 − 0 = 5 > 0`, which passes the only check `resolve_offset_delta`
performs, so resolution seeks back to offset 5 and finds the same OFS
delta again. -/
def c1_pack : List Nat := [0, 0, 0, 0, 0, 0x65, 0]

/-- C1: the claim says delta-chain resolution is depth-bounded by 50,
returns `BadDeltaChain` beyond that depth, and never loops.
`resolve_delta_chain` carries no depth counter at all: on `c1_pack` it
recurses forever (for every recursion budget, and whatever chain has
been accumulated so far, it fails to return), so no bound — 50 or any
other — exists, and `GOT_ERR_BAD_DELTA_CHAIN` is never produced during
resolution. -/
theorem pack_C1_resolution_never_returns (lookup : RefLookup) :
    ∀ fuel deltas,
      resolve_delta_chain lookup deltas c1_pack 6 0 5 1
        GOT_OBJ_TYPE_OFFSET_DELTA 5 fuel = none := by
  intro fuel
  induction fuel with
  | zero => intro deltas; rfl
  | succ n ih =>
    intro deltas
    show resolve_delta_chain lookup
        (add_delta deltas 0 5 1 GOT_OBJ_TYPE_OFFSET_DELTA 5 7) c1_pack 6 0 5
        1 GOT_OBJ_TYPE_OFFSET_DELTA 5 n = none
    exact ih _

/-! ## Claim C6 -/

theorem resolve_shape (lookup : RefLookup) :
    ∀ fuel (deltas : DeltaChain) (pf : List Nat) (pos path : Nat)
      (doff : Int) (tslen ty sz : Nat) (chain : DeltaChain),
      resolve_delta_chain lookup deltas pf pos path doff tslen ty sz fuel
        = some (.ok chain) →
      ∃ base mid,
        chain.entries = base :: (mid ++ deltas.entries) ∧
        isPlainType base.delta_type = true ∧
        (∀ d ∈ mid, d.delta_type = GOT_OBJ_TYPE_OFFSET_DELTA ∨
          d.delta_type = GOT_OBJ_TYPE_REF_DELTA) ∧
        chain.nentries = deltas.nentries + (mid.length + 1) ∧
        (isPlainType ty = true →
          mid = [] ∧ base = ⟨path, doff, tslen, ty, sz, 0⟩) ∧
        (isPlainType ty = false →
          ∃ mid0 dd, mid = mid0 ++ [⟨path, doff, tslen, ty, sz, dd⟩]) := by
  intro fuel
  induction fuel with
  | zero =>
    intro deltas pf pos path doff tslen ty sz chain h
    exact absurd h (by simp [resolve_delta_chain])
  | succ n ih =>
    intro deltas pf pos path doff tslen ty sz chain h
    rw [resolve_delta_chain] at h
    by_cases hplain : isPlainType ty = true
    · rw [if_pos hplain] at h
      injection h with h
      injection h with h
      refine ⟨⟨path, doff, tslen, ty, sz, 0⟩, [], ?_, ?_, ?_, ?_, ?_, ?_⟩
      · rw [← h, add_delta]
        simp
      · exact hplain
      · simp
      · rw [← h, add_delta]
        simp
      · exact fun _ => ⟨rfl, rfl⟩
      · intro hcon; rw [hplain] at hcon; exact Bool.noConfusion hcon
    · rw [if_neg hplain] at h
      rw [Bool.not_eq_true] at hplain
      by_cases hofs : ty = GOT_OBJ_TYPE_OFFSET_DELTA
      · rw [if_pos hofs] at h
        cases hpn : parse_negative_offset pf pos with
        | error e => rw [hpn] at h; simp at h
        | ok v =>
          obtain ⟨negoffset, negofflen⟩ := v
          rw [hpn] at h
          dsimp only at h
          by_cases hneg : doff - negoffset ≤ 0
          · rw [if_pos hneg] at h; simp at h
          · rw [if_neg hneg] at h
            cases hpt : parse_object_type_and_size pf (doff - negoffset).toNat with
            | error e => rw [hpt] at h; simp at h
            | ok w =>
              obtain ⟨bty, bsz, btslen⟩ := w
              rw [hpt] at h
              dsimp only at h
              obtain ⟨base, mid1, he, hb, hm, hn, _, _⟩ := ih _ pf _ path _
                btslen bty bsz chain h
              refine ⟨base, mid1 ++ [⟨path, doff, tslen, ty, sz,
                ((pos + negofflen : Nat) : Int)⟩], ?_, hb, ?_, ?_, ?_, ?_⟩
              · rw [he, add_delta]
                simp
              · intro d hd
                rcases List.mem_append.mp hd with hd | hd
                · exact hm d hd
                · rw [List.mem_singleton.mp hd]
                  exact Or.inl hofs
              · rw [hn, add_delta]
                simp
                omega
              · intro hcon; rw [hcon] at hplain; exact Bool.noConfusion hplain
              · intro _
                exact ⟨mid1, ((pos + negofflen : Nat) : Int), rfl⟩
      · rw [if_neg hofs] at h
        by_cases href : ty = GOT_OBJ_TYPE_REF_DELTA
        · rw [if_pos href] at h
          cases hrb : readBytes pf pos 20 with
          | none => rw [hrb] at h; simp at h
          | some id =>
            rw [hrb] at h
            dsimp only at h
            cases hlk : lookup id with
            | error e => rw [hlk] at h; simp at h
            | ok v =>
              obtain ⟨base_pf, base_path, base_offset⟩ := v
              rw [hlk] at h
              dsimp only at h
              cases hpt : parse_object_type_and_size base_pf base_offset.toNat with
              | error e => rw [hpt] at h; simp at h
              | ok w =>
                obtain ⟨bty, bsz, btslen⟩ := w
                rw [hpt] at h
                dsimp only at h
                obtain ⟨base, mid1, he, hb, hm, hn, _, _⟩ := ih _ base_pf _
                  base_path _ btslen bty bsz chain h
                refine ⟨base, mid1 ++ [⟨path, doff, tslen, ty, sz,
                  ((pos + 20 : Nat) : Int)⟩], ?_, hb, ?_, ?_, ?_, ?_⟩
                · rw [he, add_delta]
                  simp
                · intro d hd
                  rcases List.mem_append.mp hd with hd | hd
                  · exact hm d hd
                  · rw [List.mem_singleton.mp hd]
                    exact Or.inr href
                · rw [hn, add_delta]
                  simp
                  omega
                · intro hcon; rw [hcon] at hplain; exact Bool.noConfusion hplain
                · intro _
                  exact ⟨mid1, ((pos + 20 : Nat) : Int), rfl⟩
        · rw [if_neg href] at h
          simp at h

/-- C6: every successfully resolved chain of a deltified object (the
initial call of `open_delta_object` starts from an empty chain with an
OFS or REF delta) iterates as `base → d₁ → … → dₖ`: the head entry has
a plain type, every following entry is an OFS or REF delta, the entry
for the requested object itself — the outermost delta, applied last —
sits at the tail because each delta is inserted at the chain head
before its base is resolved, and `nentries` counts the entries. -/
theorem pack_C6_chain_order (lookup : RefLookup) (pf : List Nat)
    (pos path : Nat) (doff : Int) (tslen ty sz fuel : Nat)
    (chain : DeltaChain)
    (hty : ty = GOT_OBJ_TYPE_OFFSET_DELTA ∨ ty = GOT_OBJ_TYPE_REF_DELTA)
    (h : resolve_delta_chain lookup emptyDeltaChain pf pos path doff tslen
      ty sz fuel = some (.ok chain)) :
    ∃ base mid dd,
      chain.entries = base :: mid ∧
      isPlainType base.delta_type = true ∧
      (∀ d ∈ mid, d.delta_type = GOT_OBJ_TYPE_OFFSET_DELTA ∨
        d.delta_type = GOT_OBJ_TYPE_REF_DELTA) ∧
      mid ≠ [] ∧
      mid.getLast? = some ⟨path, doff, tslen, ty, sz, dd⟩ ∧
      chain.nentries = chain.entries.length := by
  obtain ⟨base, mid, he, hb, hm, hn, _, hnp⟩ :=
    resolve_shape lookup fuel emptyDeltaChain pf pos path doff tslen ty sz
      chain h
  have hplainf : isPlainType ty = false := by
    rcases hty with hty | hty <;> subst hty <;> decide
  obtain ⟨mid0, dd, hmid⟩ := hnp hplainf
  refine ⟨base, mid, dd, ?_, hb, hm, ?_, ?_, ?_⟩
  · simpa [emptyDeltaChain] using he
  · subst hmid; simp
  · subst hmid
    simp [List.getLast?_append]
  · rw [he]
    simp [emptyDeltaChain] at hn ⊢
    omega

/-- A two-object pack: a plain blob at offset 1 (header byte `0x35`:
type 3, size 5) and an OFS delta against it at offset 5 (header byte
`0x65`, negative-offset byte 4, so the base offset is `5 − 4 = 1`). -/
def c6_pack : List Nat := [0, 0x35, 0, 0, 0, 0x65, 4]

/-- Witness for C6: resolving the OFS delta of `c6_pack` yields the
chain `[blob base, delta]` with the delta last. -/
theorem pack_C6_chain_order_witness :
    ∃ base mid dd,
      (⟨[⟨0, 1, 1, 3, 5, 0⟩, ⟨0, 5, 1, 6, 5, 7⟩], 2⟩ : DeltaChain).entries
        = base :: mid ∧
      isPlainType base.delta_type = true ∧
      (∀ d ∈ mid, d.delta_type = GOT_OBJ_TYPE_OFFSET_DELTA ∨
        d.delta_type = GOT_OBJ_TYPE_REF_DELTA) ∧
      mid ≠ [] ∧
      mid.getLast? = some ⟨0, 5, 1, 6, 5, dd⟩ ∧
      (⟨[⟨0, 1, 1, 3, 5, 0⟩, ⟨0, 5, 1, 6, 5, 7⟩], 2⟩ : DeltaChain).nentries
        = (⟨[⟨0, 1, 1, 3, 5, 0⟩, ⟨0, 5, 1, 6, 5, 7⟩], 2⟩
            : DeltaChain).entries.length :=
  pack_C6_chain_order (fun _ => .error .NoObj) c6_pack 6 0 5 1
    GOT_OBJ_TYPE_OFFSET_DELTA 5 2
    ⟨[⟨0, 1, 1, 3, 5, 0⟩, ⟨0, 5, 1, 6, 5, 7⟩], 2⟩ (Or.inl rfl) (by decide)

/-! ## Claim C4 -/

/-- The in-memory loop of `dump_delta_chain_to_file` is the loop of
`dump_delta_chain_to_mem`: both inflate the plain base, fetch each
delta through the same cache, apply it with
`got_delta_apply_in_mem`, and swap base and accumulator after every
non-final application. -/
theorem dump_file_mem_go_eq_mem_go (inflate : Inflate) (path nentries : Nat) :
    ∀ (rest : List GotDelta) (n : Nat) (base accum : List Nat)
      (asize : Nat) (cache : List DeltaCacheBucket),
      dump_file_mem_go inflate path nentries rest n base accum asize cache
        = dump_mem_go inflate path nentries rest n base accum asize cache := by
  intro rest
  induction rest with
  | nil => intro n base accum asize cache; rfl
  | cons d rest ih =>
    intro n base accum asize cache
    rw [dump_file_mem_go, dump_mem_go]
    by_cases hn : n = 0
    · rw [if_pos hn, if_pos hn]
      by_cases hp : isPlainType d.delta_type = true
      · rw [if_neg (fun hc => hc hp), if_neg (fun hc => hc hp)]
        cases inflate (d.offset + (d.tslen : Int)).toNat with
        | none => rfl
        | some baseB => exact ih 1 baseB accum asize cache
      · rw [if_pos hp, if_pos hp]
    · rw [if_neg hn, if_neg hn]
      cases fetch_delta inflate cache path d with
      | error e => rfl
      | ok v =>
        obtain ⟨dbuf, dlen, cache'⟩ := v
        dsimp only
        cases got_delta_apply_in_mem base dbuf dlen with
        | error e => rfl
        | ok res =>
          dsimp only
          by_cases hlt : n + 1 < nentries
          · rw [if_pos hlt, if_pos hlt]
            exact ih (n + 1) res base res.length cache'
          · rw [if_neg hlt, if_neg hlt]
            exact ih (n + 1) base res res.length cache'

/-- The temp-file loop of `dump_delta_chain_to_file` agrees with the
in-memory loop: with equal bases and caches (and, when no application
remains, an output file holding the first `accum_size` bytes of the
accumulator), the two loops produce the same error, the same final
cache, and — on success — an output file equal to the first
`accum_size` bytes of the final accumulator. -/
theorem dump_file_file_rel (inflate : Inflate) (path nentries : Nat) :
    ∀ (rest : List GotDelta) (n : Nat)
      (basef basem accumf accum outf : List Nat) (asize : Nat)
      (cache : List DeltaCacheBucket) (ef em : Option GotErr)
      (of : List Nat) (cf : List DeltaCacheBucket) (am : List Nat)
      (sm : Nat) (cm : List DeltaCacheBucket),
      basef = basem →
      ((n = 0 ∨ rest = []) → outf = accum.take asize) →
      n + rest.length = nentries →
      dump_file_file_go inflate path nentries rest n basef accumf outf cache
        = (ef, of, cf) →
      dump_mem_go inflate path nentries rest n basem accum asize cache
        = (em, am, sm, cm) →
      ef = em ∧ cf = cm ∧ (ef = none → of = am.take sm) := by
  intro rest
  induction rest with
  | nil =>
    intro n basef basem accumf accum outf asize cache ef em of cf am sm cm
      hb hrel hcount hf hm
    simp only [dump_file_file_go] at hf
    simp only [dump_mem_go] at hm
    simp only [Prod.mk.injEq] at hf hm
    obtain ⟨hf1, hf2, hf3⟩ := hf
    obtain ⟨hm1, hm2, hm3, hm4⟩ := hm
    subst hf1; subst hf2; subst hf3
    subst hm1; subst hm2; subst hm3; subst hm4
    exact ⟨rfl, rfl, fun _ => hrel (Or.inr rfl)⟩
  | cons d rest ih =>
    intro n basef basem accumf accum outf asize cache ef em of cf am sm cm
      hb hrel hcount hf hm
    subst hb
    simp only [dump_file_file_go] at hf
    simp only [dump_mem_go] at hm
    by_cases hn : n = 0
    · rw [if_pos hn] at hf hm
      by_cases hp : isPlainType d.delta_type = true
      · rw [if_neg (fun hc => hc hp)] at hf hm
        cases hinf : inflate (d.offset + (d.tslen : Int)).toNat with
        | none =>
          rw [hinf] at hf hm
          simp only [Prod.mk.injEq] at hf hm
          obtain ⟨hf1, hf2, hf3⟩ := hf
          obtain ⟨hm1, hm2, hm3, hm4⟩ := hm
          subst hf1; subst hf2; subst hf3
          subst hm1; subst hm2; subst hm3; subst hm4
          exact ⟨rfl, rfl, fun hc => Option.noConfusion hc⟩
        | some baseB =>
          rw [hinf] at hf hm
          exact ih 1 baseB baseB accumf accum outf asize cache ef em of cf
            am sm cm rfl (fun _ => hrel (Or.inl hn))
            (by simp at hcount ⊢; omega) hf hm
      · rw [if_pos hp] at hf hm
        simp only [Prod.mk.injEq] at hf hm
        obtain ⟨hf1, hf2, hf3⟩ := hf
        obtain ⟨hm1, hm2, hm3, hm4⟩ := hm
        subst hf1; subst hf2; subst hf3
        subst hm1; subst hm2; subst hm3; subst hm4
        exact ⟨rfl, rfl, fun hc => Option.noConfusion hc⟩
    · rw [if_neg hn] at hf hm
      cases hfd : fetch_delta inflate cache path d with
      | error e =>
        rw [hfd] at hf hm
        simp only [Prod.mk.injEq] at hf hm
        obtain ⟨hf1, hf2, hf3⟩ := hf
        obtain ⟨hm1, hm2, hm3, hm4⟩ := hm
        subst hf1; subst hf2; subst hf3
        subst hm1; subst hm2; subst hm3; subst hm4
        exact ⟨rfl, rfl, fun hc => Option.noConfusion hc⟩
      | ok v =>
        obtain ⟨dbuf, dlen, cache'⟩ := v
        rw [hfd] at hf hm
        dsimp only at hf hm
        simp only [got_delta_apply] at hf
        cases happ : got_delta_apply_in_mem basef dbuf dlen with
        | error e =>
          rw [happ] at hf hm
          simp only [Prod.mk.injEq] at hf hm
          obtain ⟨hf1, hf2, hf3⟩ := hf
          obtain ⟨hm1, hm2, hm3, hm4⟩ := hm
          subst hf1; subst hf2; subst hf3
          subst hm1; subst hm2; subst hm3; subst hm4
          exact ⟨rfl, rfl, fun hc => Option.noConfusion hc⟩
        | ok res =>
          rw [happ] at hf hm
          dsimp only at hf hm
          by_cases hlt : n + 1 < nentries
          · rw [if_pos hlt] at hf hm
            refine ih (n + 1) res res basef basef outf res.length cache'
              ef em of cf am sm cm rfl ?_ (by simp at hcount ⊢; omega) hf hm
            intro hc
            exfalso
            rcases hc with hc | hc
            · omega
            · subst hc
              simp at hcount
              omega
          · rw [if_neg hlt] at hf hm
            exact ih (n + 1) basef basef accumf res res res.length cache'
              ef em of cf am sm cm rfl
              (fun _ => (List.take_length res).symm)
              (by simp at hcount ⊢; omega) hf hm

/-- `dump_delta_chain_to_file` and `dump_delta_chain_to_mem` agree on
every chain whose `nentries` counter matches its entry count (the
invariant resolution maintains): when both succeed from the same cache
state, the file content equals the first `*outlen` bytes of the
returned buffer. -/
theorem dump_agreement (inflate : Inflate) (deltas : DeltaChain)
    (path : Nat) (cache : List DeltaCacheBucket) (fb : List Nat)
    (cf : List DeltaCacheBucket) (mb : Option (List Nat)) (ml : Nat)
    (cm : List DeltaCacheBucket)
    (hn : deltas.nentries = deltas.entries.length)
    (hf : dump_delta_chain_to_file inflate deltas path cache
      = (none, fb, cf))
    (hm : dump_delta_chain_to_mem inflate deltas path cache
      = (none, mb, ml, cm)) :
    ∃ b, mb = some b ∧ fb = b.take ml := by
  unfold dump_delta_chain_to_file at hf
  unfold dump_delta_chain_to_mem at hm
  by_cases hemp : deltas.entries = []
  · rw [if_pos hemp] at hf
    exact absurd hf (by simp)
  · rw [if_neg hemp] at hf hm
    cases hmax : get_delta_chain_max_size inflate deltas.entries with
    | error e =>
      rw [hmax] at hf
      exact absurd hf (by simp)
    | ok msz =>
      rw [hmax] at hf hm
      dsimp only at hf hm
      rcases hloop : dump_mem_go inflate path deltas.nentries
        deltas.entries 0 [] [] 0 cache with ⟨err, accum, asize, cache2⟩
      rw [hloop] at hm
      cases err with
      | some e => exact absurd hm (by simp)
      | none =>
        simp only [ExtractMemResult.mk.injEq, Prod.mk.injEq] at hm
        by_cases hsz : msz < GOT_DELTA_RESULT_SIZE_CACHED_MAX
        · rw [if_pos hsz, dump_file_mem_go_eq_mem_go, hloop] at hf
          dsimp only at hf
          simp only [Prod.mk.injEq] at hf
          refine ⟨accum, hm.2.1.symm, ?_⟩
          rw [← hf.2.1, hm.2.2.1]
        · rw [if_neg hsz] at hf
          rcases hfloop : dump_file_file_go inflate path deltas.nentries
            deltas.entries 0 [] [] [] cache with ⟨errf, outf, cachef⟩
          rw [hfloop] at hf
          dsimp only at hf
          simp only [Prod.mk.injEq] at hf
          obtain ⟨he1, he2, he3⟩ := dump_file_file_rel inflate path
            deltas.nentries deltas.entries 0 [] [] [] [] [] 0 cache errf
            none outf cachef accum asize cache2 rfl (fun _ => rfl)
            (by omega) hfloop hloop
          refine ⟨accum, hm.2.1.symm, ?_⟩
          rw [← hf.2.1, he3 (by rw [he1]), hm.2.2.1]

/-- C4: for every packed object on which both extraction surfaces
succeed (with the chain invariant `nentries = entries.length` that
resolution establishes), the bytes read back from the file produced by
`got_packfile_extract_object` are byte-for-byte the bytes returned by
`got_packfile_extract_object_to_mem`: the non-deltified paths inflate
the same stream, and the in-memory and temp-file delta-application
paths compute the same result. -/
theorem pack_C4_extract_agreement (inflate : Inflate)
    (fs : Nat → Option (List Nat)) (obj : GotObject)
    (cache : List DeltaCacheBucket) (buf0 : Option (List Nat))
    (len0 : Nat) (fbytes mbuf : List Nat) (mlen : Nat) (tc : Bool)
    (cf cm : List DeltaCacheBucket)
    (hn : obj.deltas.nentries = obj.deltas.entries.length)
    (hf : got_packfile_extract_object inflate fs obj cache
      = ⟨none, tc, some fbytes, cf⟩)
    (hm : got_packfile_extract_object_to_mem inflate fs obj cache buf0 len0
      = ⟨none, some mbuf, mlen, cm⟩) :
    fbytes = mbuf.take mlen := by
  unfold got_packfile_extract_object at hf
  unfold got_packfile_extract_object_to_mem at hm
  by_cases hp : obj.flags &&& GOT_OBJ_FLAG_PACKED = 0
  · rw [if_pos hp] at hf
    exact absurd hf (by simp)
  · rw [if_neg hp] at hf hm
    cases hfs : fs obj.path_packfile with
    | none =>
      rw [hfs] at hf
      exact absurd hf (by simp)
    | some pf =>
      rw [hfs] at hf hm
      dsimp only at hf hm
      by_cases hd : obj.flags &&& GOT_OBJ_FLAG_DELTIFIED = 0
      · rw [if_pos hd] at hf hm
        cases hinf : inflate obj.pack_offset.toNat with
        | none =>
          rw [hinf] at hf
          exact absurd hf (by simp)
        | some bytes =>
          rw [hinf] at hf hm
          simp only [ExtractFileResult.mk.injEq] at hf
          simp only [ExtractMemResult.mk.injEq] at hm
          obtain ⟨-, -, hfb, -⟩ := hf
          obtain ⟨-, hmb, hml, -⟩ := hm
          have h1 := Option.some_inj.mp hfb
          have h2 := Option.some_inj.mp hmb
          subst h1
          subst h2
          rw [← hml, List.take_length]
      · rw [if_neg hd] at hf hm
        rcases hdf : dump_delta_chain_to_file inflate obj.deltas
          obj.path_packfile cache with ⟨errf, outf, cachef⟩
        rw [hdf] at hf
        rcases hdm : dump_delta_chain_to_mem inflate obj.deltas
          obj.path_packfile cache with ⟨errm, bufm, lenm, cachem⟩
        rw [hdm] at hm
        cases errf with
        | some e => exact absurd hf (by simp)
        | none =>
          cases errm with
          | some e => exact absurd hm (by simp)
          | none =>
            dsimp only at hf hm
            simp only [ExtractFileResult.mk.injEq] at hf
            simp only [ExtractMemResult.mk.injEq] at hm
            obtain ⟨b, hb1, hb2⟩ := dump_agreement inflate obj.deltas
              obj.path_packfile cache outf cachef bufm lenm cachem hn hdf
              hdm
            obtain ⟨-, -, hfb, -⟩ := hf
            obtain ⟨-, hmb, hml, -⟩ := hm
            have h1 := Option.some_inj.mp hfb
            have h2 : b = mbuf := by
              rw [hb1] at hmb
              exact Option.some_inj.mp hmb
            subst h1
            subst h2
            rw [hb2, hml]

/-- Inflation oracle for the C4 witness pack: a 3-byte blob base at
offset 2 and a delta stream at offset 7 (base size 3, result size 4,
one copy of the whole base, one literal byte 99). -/
def c4_inflate : Inflate := fun pos =>
  if pos = 2 then some [10, 11, 12]
  else if pos = 7 then some [3, 4, 0x90, 3, 1, 99] else none

/-- A packed, deltified object whose resolved chain is the blob base at
offset 1 followed by one OFS delta at offset 5. -/
def c4_obj : GotObject :=
  ⟨3, 3, 0, 0, 0, 0, ⟨[⟨0, 1, 1, 3, 3, 0⟩, ⟨0, 5, 1, 6, 5, 7⟩], 2⟩⟩

/-- Witness for C4: both extraction surfaces materialize the object of
`c4_obj` to the same four bytes. -/
theorem pack_C4_extract_agreement_witness :
    [10, 11, 12, 99] = List.take 4 [10, 11, 12, 99] :=
  pack_C4_extract_agreement c4_inflate (fun _ => some []) c4_obj [] none 0
    [10, 11, 12, 99] [10, 11, 12, 99] 4 true
    [⟨0, [⟨7, [3, 4, 0x90, 3, 1, 99], 6⟩]⟩]
    [⟨0, [⟨7, [3, 4, 0x90, 3, 1, 99], 6⟩]⟩]
    (by decide) (by decide) (by decide)

end Got
